import Mathlib

/-!
# RazerGenie custom editor (`src/customeditor/customeditor.cpp`)

A shallow embedding of the `CustomEditor` dialog: its colour grid, draw mode,
key button registry, layout builders and scheme persistence, followed by the
properties of the specification that were checked against it.

Conventions of the embedding.

* The members of the class are the first fields of `CustomEditor`; the two last
  fields record what the dialog did to the outside world (the scheme file on
  disk and the chronological trace of device calls, notices and close requests).
* The device and the settings are outside the class; every operation takes the
  answers they give at the time of the call as arguments (`Device`,
  `Environment`).
* An operation returns `Except (Halt × CustomEditor) CustomEditor`: either the
  state it returns with, or the reason the process stopped together with the
  state at that moment (`abort()`, or an index outside a `QVector`, or a write
  outside a `QJsonArray`). A read of a `QJsonArray` outside its items does not
  stop the process: it yields `Undefined`.
-/

namespace RazerGenie

/-! ## Colours -/

/-- An RGB colour as `QColor` holds it for `name()`; eight bits are used of each channel. -/
structure QColor where
  red : Nat
  green : Nat
  blue : Nat
deriving DecidableEq, Repr

/-- The colour `QColor(Qt::black)`. -/
def Qt.black : QColor := ⟨0, 0, 0⟩

/-- The colour `QColor(Qt::green)`. -/
def Qt.green : QColor := ⟨0, 255, 0⟩

/-- Two lower-case hexadecimal digits of a channel. -/
def hex2 (n : Nat) : List Char :=
  [Nat.digitChar (n % 256 / 16), Nat.digitChar (n % 16)]

/-- The string `QColor::name()`: `#rrggbb`. -/
def QColor.name (c : QColor) : String :=
  String.mk ('#' :: (hex2 c.red ++ hex2 c.green ++ hex2 c.blue))

/-! ## JSON values (the part of `QJsonValue`, `QJsonArray`, `QJsonObject` the editor uses) -/

/-- A JSON value. A number carries `some n` when it is the whole number `n` and `none`
otherwise; an object is its list of members in iteration order. -/
inductive QJsonValue where
  | null
  | undefined
  | bool (b : Bool)
  | number (whole : Option Int)
  | string (s : String)
  | array (items : List QJsonValue)
  | object (members : List (String × QJsonValue))

/-- The members of a `QJsonObject`, in iteration order. -/
abbrev QJsonObject := List (String × QJsonValue)

/-- The method `QJsonValue::isNull()`. -/
def QJsonValue.isNull : QJsonValue → Bool
  | .null => true
  | _ => false

/-- The method `QJsonValue::isUndefined()`. -/
def QJsonValue.isUndefined : QJsonValue → Bool
  | .undefined => true
  | _ => false

/-- The method `QJsonValue::toObject()`: the empty object for a value that is not one. -/
def QJsonValue.toObject : QJsonValue → QJsonObject
  | .object members => members
  | _ => []

/-- The method `QJsonValue::toArray()`: the empty array for a value that is not one. -/
def QJsonValue.toArray : QJsonValue → List QJsonValue
  | .array items => items
  | _ => []

/-- The method `QJsonValue::toString()`: the null string for a value that is not a string. -/
def QJsonValue.toString : QJsonValue → String
  | .string s => s
  | _ => ""

/-- The method `QJsonValue::toInt()`: the default `0` unless the value is a whole number
that fits an `int`. -/
def QJsonValue.toInt : QJsonValue → Int
  | .number (some n) => if -2147483648 ≤ n ∧ n ≤ 2147483647 then n else 0
  | _ => 0

/-- The method `QJsonObject::contains(key)`. -/
def QJsonObject.contains (o : QJsonObject) (key : String) : Bool :=
  o.any (fun kv => kv.1 == key)

/-- The method `QJsonObject::value(key)`: `Undefined` for an absent key. -/
def QJsonObject.value (o : QJsonObject) (key : String) : QJsonValue :=
  match o.find? (fun kv => kv.1 == key) with
  | some kv => kv.2
  | none => .undefined

/-- The order of the keys of a `QJsonObject`: character by character, by character code. -/
def keyLess : List Char → List Char → Bool
  | [], [] => false
  | [], _ :: _ => true
  | _ :: _, [] => false
  | a :: as, b :: bs =>
    if a.toNat < b.toNat then true
    else if b.toNat < a.toNat then false
    else keyLess as bs

/-- The assignment `o[key] = v` (`QJsonObject::insert`): replaces the value of an existing
key, otherwise adds the member at its place in key order. -/
def QJsonObject.insert : QJsonObject → String → QJsonValue → QJsonObject
  | [], key, v => [(key, v)]
  | (k, w) :: rest, key, v =>
    if k = key then (key, v) :: rest
    else if keyLess key.data k.data then (key, v) :: (k, w) :: rest
    else (k, w) :: QJsonObject.insert rest key v

/-- The non-const `o[key]` read through `QJsonValueRef`: Qt first creates a `Null` member
for an absent key, then refers to the member. Returns the object after that and the value. -/
def QJsonObject.ref (o : QJsonObject) (key : String) : QJsonObject × QJsonValue :=
  if o.contains key then (o, o.value key)
  else (o.insert key .null, .null)

/-- The value read by the non-const `o[key]`. -/
def QJsonObject.at (o : QJsonObject) (key : String) : QJsonValue :=
  (o.ref key).2

/-- A parsed file: `QJsonDocument::fromJson` of its text. `null` stands for text that does
not parse. -/
inductive QJsonDocument where
  | null
  | ofArray (items : List QJsonValue)
  | ofObject (o : QJsonObject)

/-- The method `QJsonDocument::isNull()`. -/
def QJsonDocument.isNull : QJsonDocument → Bool
  | .null => true
  | _ => false

/-- The method `QJsonDocument::object()`: empty unless the document holds an object. -/
def QJsonDocument.object : QJsonDocument → QJsonObject
  | .ofObject o => o
  | _ => []

/-! ## Containers indexed by `int` -/

/-- The element `v[i]` of a `QVector`/`QJsonArray`; `none` when `i` is not a valid index
(Qt asserts `0 <= i < size()`). -/
def QVector.at? {α : Type} (v : List α) (i : Int) : Option α :=
  if 0 ≤ i then v[i.toNat]? else none

/-- The assignment `v[i] = x`; `none` when `i` is not a valid index. -/
def QVector.set? {α : Type} (v : List α) (i : Int) (x : α) : Option (List α) :=
  if 0 ≤ i ∧ i < v.length then some (v.set i.toNat x) else none

/-- The read of `a[i]` of a `QJsonArray` through `QJsonValueRef` (`QJsonArray::at(i)`):
`Undefined` when `i` is not an index of the array. -/
def QJsonArray.at (a : List QJsonValue) (i : Int) : QJsonValue :=
  (QVector.at? a i).getD .undefined

/-- The method `QJsonArray::insert(i, x)`: the items from `i` on move one place up; `none`
when `i` is outside `0 .. size()` (Qt asserts it). -/
def QJsonArray.insert? (a : List QJsonValue) (i : Int) (x : QJsonValue) : Option (List QJsonValue) :=
  if 0 ≤ i ∧ i ≤ a.length then some (a.take i.toNat ++ x :: a.drop i.toNat) else none

/-! ## The dialog and its surroundings -/

/-- Modelled from the spec: the draw mode `DrawStatus` of `customeditor.h`, which is not
among the sources: "Draw Mode: enum {Set, Clear}". -/
inductive DrawStatus where
  | set
  | clear
deriving DecidableEq, Repr

/-- Modelled from the spec: the key widget `MatrixPushButton`, whose class is not among the
sources. It carries its label, the fixed size given to it, its tagged `(row, column)`
position, whether it is enabled, and its displayed colour: `none` is the reset (default)
appearance, `some c` the colour painted by `setButtonColor(c)`. -/
structure MatrixPushButton where
  label : String
  fixedSize : Option (Int × Int)
  matrixpos : Int × Int
  enabled : Bool
  buttonColor : Option QColor
deriving DecidableEq, Repr

/-- Modelled from the spec: a new `MatrixPushButton(label)` in the default appearance. Its
position before any `setMatrixPos` belongs to the missing class and is the argument `pos`. -/
def MatrixPushButton.new (label : String) (pos : Int × Int) : MatrixPushButton :=
  ⟨label, none, pos, true, none⟩

/-- Modelled from the spec: `setMatrixPos(x, y)` tags the button with `(x, y)`. -/
def MatrixPushButton.setMatrixPos (b : MatrixPushButton) (x y : Int) : MatrixPushButton :=
  { b with matrixpos := (x, y) }

/-- Modelled from the spec: `setButtonColor(c)` makes the button display `c`. -/
def MatrixPushButton.setButtonColor (b : MatrixPushButton) (c : QColor) : MatrixPushButton :=
  { b with buttonColor := some c }

/-- Modelled from the spec: `resetButtonColor()` puts the button back in its reset
appearance. -/
def MatrixPushButton.resetButtonColor (b : MatrixPushButton) : MatrixPushButton :=
  { b with buttonColor := none }

/-- The two places `parseKeyboardJSON` looks for a layout description. -/
inductive AssetDir where
  | devel
  | prod
deriving DecidableEq, Repr

/-- The three notices `generateKeyboard` gives through `util::showInfo`. -/
inductive Info where
  | layoutUnknown
  | layoutUnsupported (kbdLayout : String)
  | noFallbackLayout
deriving DecidableEq, Repr

/-- What the dialog does to the outside world, in the order it happens. A message box is
named by its title. -/
inductive Event where
  | messageBox (title : String)
  | showInfo (info : Info)
  | closeWindow
  | openAsset (dir : AssetDir) (jsonname : String)
  | setKeyRow (row startCol endCol : Int) (rowColors : List QColor)
  | setCustom
  | mkpath
  | writeScheme (document : QJsonObject)

/-- The answers of `libopenrazer::Device` at the time of a call. The matrix dimensions
are counts of rows and columns, so they are natural numbers here. -/
structure Device where
  matrixDimensions : Nat × Nat
  deviceType : String
  keyboardLayout : String
  deviceName : String
  setKeyRow : Int → Int → Int → List QColor → Bool
  setCustom : Bool

/-- What the dialog reads besides the device: the layout description files at the
development and at the installed location (`none`: the file does not open), the setting
`exportToJSON`, and the position of a `MatrixPushButton` that was never tagged. -/
structure Environment where
  develLayouts : String → Option QJsonDocument
  prodLayouts : String → Option QJsonDocument
  exportToJSON : Bool
  untaggedPos : Int × Int

/-- The members of `CustomEditor` the operations use, then the scheme file
`razergenie/colours/default.json` (`none`: it does not exist) and the trace of events. -/
structure CustomEditor where
  dimens : Nat × Nat
  colors : List (List QColor)
  selectedColor : QColor
  drawStatus : DrawStatus
  matrixPushButtons : List MatrixPushButton
  keyboardKeys : QJsonObject
  config : QJsonObject
  schemeFile : Option QJsonDocument
  events : List Event

/-- Why the process stopped inside an operation. -/
inductive Halt where
  | abort
  | indexOutOfRange
deriving DecidableEq, Repr

/-- The result of an operation: the state it returns with, or why and where it stopped. -/
abbrev Run := Except (Halt × CustomEditor) CustomEditor

/-- The last state of a run, whether it returned or stopped. -/
def Run.lastState : Run → CustomEditor
  | .ok s => s
  | .error e => e.2

/-- Appends one event to the trace. -/
def CustomEditor.emit (s : CustomEditor) (e : Event) : CustomEditor :=
  { s with events := s.events ++ [e] }

/-- The method `closeWindow()`: marks the dialog for deletion on close and closes it. -/
def CustomEditor.closeWindow (s : CustomEditor) : CustomEditor :=
  s.emit .closeWindow

/-- The method `setDrawStatusSet()`. -/
def CustomEditor.setDrawStatusSet (s : CustomEditor) : CustomEditor :=
  { s with drawStatus := .set }

/-- The method `setDrawStatusClear()`. -/
def CustomEditor.setDrawStatusClear (s : CustomEditor) : CustomEditor :=
  { s with drawStatus := .clear }

/-- The method `colorButtonClicked()`; `chosen` is what the colour dialog returns, `none`
when it is cancelled (an invalid colour). -/
def CustomEditor.colorButtonClicked (chosen : Option QColor) (s : CustomEditor) : CustomEditor :=
  match chosen with
  | some color => { s with selectedColor := color }
  | none => s

/-- The method `updateKeyrow(row)`: sends the row of the grid to the device, then commits
it unless the first call failed. Returns the value of the method with the state. -/
def CustomEditor.updateKeyrow (device : Device) (row : Int) (s : CustomEditor) :
    Except (Halt × CustomEditor) (Bool × CustomEditor) :=
  match QVector.at? s.colors row with
  | none => .error (.indexOutOfRange, s)
  | some rowColors =>
    let endCol : Int := (s.dimens.2 : Int) - 1
    let s1 := s.emit (.setKeyRow row 0 endCol rowColors)
    if device.setKeyRow row 0 endCol rowColors then
      (.ok (device.setCustom, s1.emit .setCustom))
    else
      (.ok (false, s1))

/-- The method `clearAll()`: one `setKeyRow` per row with a blank row, `setCustom`, then
the view and the model are reset. The answers of the device are not looked at. -/
def CustomEditor.clearAll (s : CustomEditor) : CustomEditor :=
  let blankColors := (List.range s.dimens.2).map (fun _ => Qt.black)
  let endCol : Int := (s.dimens.2 : Int) - 1
  let rowCalls := (List.range s.dimens.1).map
    (fun (i : Nat) => Event.setKeyRow (i : Int) 0 endCol blankColors)
  { s with
    events := s.events ++ rowCalls ++ [Event.setCustom]
    matrixPushButtons := s.matrixPushButtons.map MatrixPushButton.resetButtonColor
    colors := s.colors.map (fun row => row.map (fun _ => Qt.black)) }

/-- The slot `onMatrixPushButtonClicked()`; the sender is the `sender`-th button of the
registry (every button connected to the slot is registered). The branch for a draw status
that is neither `set` nor `clear` has no counterpart: the enumeration has two values. -/
def CustomEditor.onMatrixPushButtonClicked (device : Device) (sender : Nat) (s : CustomEditor) :
    Run :=
  match s.matrixPushButtons[sender]? with
  | none => .error (.indexOutOfRange, s)
  | some btn =>
    let pos := btn.matrixpos
    let painted : QColor × MatrixPushButton :=
      match s.drawStatus with
      | .set => (s.selectedColor, btn.setButtonColor s.selectedColor)
      | .clear => (Qt.black, btn.resetButtonColor)
    match QVector.at? s.colors pos.1 with
    | none => .error (.indexOutOfRange, s)
    | some rowColors =>
      match QVector.set? rowColors pos.2 painted.1 with
      | none => .error (.indexOutOfRange, s)
      | some newRow =>
        let s1 := { s with
          colors := s.colors.set pos.1.toNat newRow
          matrixPushButtons := s.matrixPushButtons.set sender painted.2 }
        match s1.updateKeyrow device pos.1 with
        | .ok r => .ok r.2
        | .error e => .error e

/-! ## Layout builders -/

/-- The method `parseKeyboardJSON(jsonname)`: the development file first, then the installed
one; the parsed object becomes `keyboardKeys`. Returns the value of the method with the
state. -/
def CustomEditor.parseKeyboardJSON (env : Environment) (jsonname : String) (s : CustomEditor) :
    Bool × CustomEditor :=
  let s1 := s.emit (.openAsset .devel jsonname)
  match env.develLayouts jsonname with
  | some doc => (true, { s1 with keyboardKeys := doc.object })
  | none =>
    let s2 := s1.emit (.openAsset .prod jsonname)
    match env.prodLayouts jsonname with
    | some doc => (true, { s2 with keyboardKeys := doc.object })
    | none => (false, s2.emit (.messageBox ("Error loading " ++ jsonname ++ ".json!")))

/-- The preference list of `generateKeyboard`. -/
def fallbackLangs : List String := ["de_DE", "en_US", "en_GB"]

/-- The first part of `generateKeyboard` (up to the loop over the rows): the layout that
will be drawn, and the state after the notices and close requests of the resolution. -/
def CustomEditor.resolveKeyboardLayout (device : Device) (s : CustomEditor) :
    QJsonObject × CustomEditor :=
  let kbdLayout := device.keyboardLayout
  if kbdLayout ≠ "unknown" ∧ s.keyboardKeys.contains kbdLayout = true then
    ((s.keyboardKeys.at kbdLayout).toObject, s)
  else
    let s1 :=
      if kbdLayout = "unknown" then s.emit (.showInfo .layoutUnknown)
      else (s.emit (.showInfo (.layoutUnsupported kbdLayout))).closeWindow
    match fallbackLangs.find? (fun lang => s.keyboardKeys.contains lang) with
    | some lang => ((s.keyboardKeys.at lang).toObject, s1)
    | none => ([], (s1.emit (.showInfo .noFallbackLayout)).closeWindow)

/-- The position `setMatrixPos(arr[0].toInt(), arr[1].toInt())` gives a key whose
descriptor has a `matrix` member. The source does not look at the size of the array: an
item the array does not have reads as `Undefined`, whose `toInt()` is 0. -/
def declaredPos (obj : QJsonObject) : Int × Int :=
  let arr := (obj.at "matrix").toArray
  ((QJsonArray.at arr 0).toInt, (QJsonArray.at arr 1).toInt)

/-- The body of the loop over the keys of a row: a descriptor with a label becomes a
registered button, one without a label a spacer (which is not registered). No access of
the body can stop the process; the result has the type of the other operations. -/
def CustomEditor.addKey (env : Environment) (obj : QJsonObject) (s : CustomEditor) : Run :=
  if (obj.at "label").isNull = false then
    let btn := MatrixPushButton.new (obj.at "label").toString env.untaggedPos
    let width : Int := if obj.contains "width" then (obj.value "width").toInt else 60
    let btn1 := { btn with fixedSize := some (width, 63) }
    let btn2 :=
      if obj.contains "matrix" then btn1.setMatrixPos (declaredPos obj).1 (declaredPos obj).2
      else btn1
    let btn3 := if obj.contains "disabled" then { btn2 with enabled := false } else btn2
    .ok { s with matrixPushButtons := s.matrixPushButtons ++ [btn3] }
  else .ok s

/-- The loop over the keys of one row. -/
def CustomEditor.addKeys (env : Environment) : List QJsonValue → CustomEditor → Run
  | [], s => .ok s
  | jt :: rest, s =>
    match s.addKey env jt.toObject with
    | .ok s1 => CustomEditor.addKeys env rest s1
    | .error e => .error e

/-- The loop over the rows of the resolved layout, in the iteration order of the object. -/
def CustomEditor.addRows (env : Environment) : QJsonObject → CustomEditor → Run
  | [], s => .ok s
  | it :: rest, s =>
    match CustomEditor.addKeys env it.2.toArray s with
    | .ok s1 => CustomEditor.addRows env rest s1
    | .error e => .error e

/-- The method `generateKeyboard()`. -/
def CustomEditor.generateKeyboard (env : Environment) (device : Device) (s : CustomEditor) : Run :=
  let resolved := s.resolveKeyboardLayout device
  CustomEditor.addRows env resolved.1 resolved.2

/-- The method `generateMousemat()`: one button per column, tagged `(0, i)`. -/
def CustomEditor.generateMousemat (env : Environment) (s : CustomEditor) : CustomEditor :=
  { s with matrixPushButtons := s.matrixPushButtons ++
      (List.range s.dimens.2).map (fun (i : Nat) =>
        (MatrixPushButton.new (toString i) env.untaggedPos).setMatrixPos 0 (i : Int)) }

/-- The method `generateMatrixDiscovery()`: one button per cell, row after row, labelled
`row_col` and tagged `(row, col)`. -/
def CustomEditor.generateMatrixDiscovery (env : Environment) (s : CustomEditor) : CustomEditor :=
  { s with matrixPushButtons := s.matrixPushButtons ++
      (List.range s.dimens.1).flatMap (fun (i : Nat) =>
        (List.range s.dimens.2).map (fun (j : Nat) =>
          (MatrixPushButton.new (toString i ++ "_" ++ toString j) env.untaggedPos).setMatrixPos
            (i : Int) (j : Int))) }

/-! ## Scheme persistence -/

/-- The method `loadColours()`. A missing file and a document that does not parse give a
notice and return. Otherwise the object of the document becomes `config`; `config[devName]`
is the non-const access, and the method returns only if the value it refers to is
`Undefined`; past that test the stored matrix is printed and the process is halted by
`abort()`. -/
def CustomEditor.loadColours (device : Device) (s : CustomEditor) : Run :=
  match s.schemeFile with
  | none => .ok (s.emit (.messageBox "Could not find scheme!"))
  | some doc =>
    if doc.isNull then .ok (s.emit (.messageBox "Could not parse!"))
    else
      let devName := device.deviceName
      let found := doc.object.ref devName
      let s1 := { s with config := found.1 }
      if found.2.isUndefined then .ok s1
      else .error (.abort, s1)

/-- The first loop of `exportToJSON`: `rows + 1` rows of `cols` empty strings each
(`matrix.insert(i, ins)` with `i = matrix.size()` adds `ins` at the end). -/
def allocateMatrix (dimens : Nat × Nat) : List QJsonValue :=
  (List.range (dimens.1 + 1)).foldl
    (fun matrix _ =>
      matrix ++ [QJsonValue.array
        ((List.range dimens.2).foldl (fun ins _ => ins ++ [QJsonValue.string ""]) [])])
    []

/-- The body of the second loop of `exportToJSON` for one button: the name of the colour
at the tagged position is inserted in the row of the matrix with `QJsonArray::insert`, and
the row is put back. `none` when one of the four indexed accesses is out of range (the
read `matrix[r]` of a row the matrix does not have gives an empty array in Qt, but the
assignment `matrix[r] = ins` that follows is then outside the matrix). -/
def populateCell (colors : List (List QColor)) (matrix : List QJsonValue)
    (btn : MatrixPushButton) : Option (List QJsonValue) :=
  let cords := btn.matrixpos
  match QVector.at? colors cords.1 with
  | none => none
  | some rowColors =>
    match QVector.at? rowColors cords.2 with
    | none => none
    | some color =>
      let keyColour := color.name
      match QVector.at? matrix cords.1 with
      | none => none
      | some row =>
        match QJsonArray.insert? row.toArray cords.2 (.string keyColour) with
        | none => none
        | some ins => QVector.set? matrix cords.1 (.array ins)

/-- The second loop of `exportToJSON`, over the registered buttons in order. -/
def populateMatrix (colors : List (List QColor)) :
    List MatrixPushButton → List QJsonValue → Option (List QJsonValue)
  | [], matrix => some matrix
  | btn :: rest, matrix =>
    match populateCell colors matrix btn with
    | none => none
    | some matrix1 => populateMatrix colors rest matrix1

/-- The method `exportToJSON()`. Nothing is done for a device that is not a keyboard.
Otherwise the dimensions are read again, the matrix is allocated and populated, the device
section is put in `config` under the device name (in a fresh document with `Name` and
`Author` when `config` is empty), and the document is written to the scheme file: the file
then parses to the object that was written. -/
def CustomEditor.exportToJSON (device : Device) (s : CustomEditor) : Run :=
  if device.deviceType ≠ "keyboard" then .ok s
  else
    let devName := device.deviceName
    let s1 := { s with dimens := device.matrixDimensions }
    let json : QJsonObject :=
      (QJsonObject.insert [] "Name" (.string "Default Profile")).insert "Author"
        (.string "RazerGenie")
    match populateMatrix s1.colors s1.matrixPushButtons (allocateMatrix s1.dimens) with
    | none => .error (.indexOutOfRange, s1)
    | some matrix =>
      let devSection : QJsonObject :=
        (QJsonObject.insert [] "Type" (.string device.deviceType)).insert "Matrix"
          (.array matrix)
      let config1 : QJsonObject :=
        if s1.config.isEmpty = false then s1.config.insert devName (.object devSection)
        else json.insert devName (.object devSection)
      let s2 := { s1 with config := config1, schemeFile := some (.ofObject config1) }
      .ok (((s2.emit .mkpath).emit (.writeScheme config1)).emit (.messageBox "Colormap exported!"))

/-! ## Construction and destruction -/

/-- The state at the start of the constructor body's dispatch: the dimensions are read,
the grid is `rows` rows of `cols` black cells, the selected colour is green, the draw
status is `set`; no button is registered and both JSON members are empty. `schemeFile` is
the scheme file found on disk. -/
def CustomEditor.initial (device : Device) (schemeFile : Option QJsonDocument) : CustomEditor :=
  { dimens := device.matrixDimensions
    colors := (List.range device.matrixDimensions.1).map
      (fun _ => (List.range device.matrixDimensions.2).map (fun _ => Qt.black))
    selectedColor := Qt.green
    drawStatus := .set
    matrixPushButtons := []
    keyboardKeys := []
    config := []
    schemeFile := schemeFile
    events := [] }

/-- The statement `if(!parseKeyboardJSON(..)) closeWindow();` on the result of the parse. -/
def CustomEditor.closeUnless (r : Bool × CustomEditor) : CustomEditor :=
  if r.1 = false then r.2.closeWindow else r.2

/-- The choice of the layout description by the dimensions in the keyboard branch of the
constructor: a failed load and unknown dimensions both request a close. -/
def CustomEditor.selectLayout (env : Environment) (s : CustomEditor) : CustomEditor :=
  if s.dimens.1 = 6 ∧ s.dimens.2 = 16 then
    CustomEditor.closeUnless (s.parseKeyboardJSON env "razerblade16")
  else if s.dimens.1 = 6 ∧ s.dimens.2 = 22 then
    CustomEditor.closeUnless (s.parseKeyboardJSON env "razerdefault22")
  else if s.dimens.1 = 6 ∧ s.dimens.2 = 25 then
    CustomEditor.closeUnless (s.parseKeyboardJSON env "razerblade25")
  else (s.emit (.messageBox "Unknown matrix dimensions")).closeWindow

/-- The branch of the constructor for a keyboard: after the choice of the layout
description, `generateKeyboard` runs in every case. -/
def CustomEditor.keyboardBranch (env : Environment) (device : Device) (s : CustomEditor) : Run :=
  (s.selectLayout env).generateKeyboard env device

/-- The dispatch of the constructor on the discovery flag and the device type. -/
def CustomEditor.buildLayout (env : Environment) (device : Device) (launchMatrixDiscovery : Bool)
    (s : CustomEditor) : Run :=
  let type := device.deviceType
  if launchMatrixDiscovery then .ok (s.generateMatrixDiscovery env)
  else if type = "keyboard" then s.keyboardBranch env device
  else if type = "mousemat" then
    if s.dimens.1 = 1 ∧ s.dimens.2 = 15 then .ok (s.generateMousemat env)
    else .ok (s.emit (.messageBox "Unknown matrix dimensions")).closeWindow
  else .ok (s.emit (.messageBox "Device type not implemented!")).closeWindow

/-- The constructor `CustomEditor(device, launchMatrixDiscovery)`: initial members, the
layout, then the saved colours are loaded for a keyboard when the setting `exportToJSON`
is on, and everything is cleared otherwise. -/
def CustomEditor.new (env : Environment) (device : Device) (launchMatrixDiscovery : Bool)
    (schemeFile : Option QJsonDocument) : Run :=
  match (CustomEditor.initial device schemeFile).buildLayout env device launchMatrixDiscovery with
  | .error e => .error e
  | .ok s =>
    if env.exportToJSON = true ∧ device.deviceType = "keyboard" then s.loadColours device
    else .ok s.clearAll

/-- The destructor: exports when the setting `exportToJSON` is on. -/
def CustomEditor.destroy (env : Environment) (device : Device) (s : CustomEditor) : Run :=
  if env.exportToJSON then s.exportToJSON device else .ok s

/-! ## Reading the state -/

/-- The cell `colors[r][c]` of the model; `none` outside the grid. -/
def CustomEditor.cell (s : CustomEditor) (r c : Int) : Option QColor :=
  (QVector.at? s.colors r).bind (fun row => QVector.at? row c)

/-- A position lies within a matrix of `dimens.1` rows and `dimens.2` columns. -/
def inBounds (dimens : Nat × Nat) (pos : Int × Int) : Prop :=
  (0 ≤ pos.1 ∧ pos.1 < dimens.1) ∧ (0 ≤ pos.2 ∧ pos.2 < dimens.2)

instance (dimens : Nat × Nat) (pos : Int × Int) : Decidable (inBounds dimens pos) := by
  unfold inBounds; infer_instance

/-- The grid has `rows` rows of `cols` cells each. -/
def isGrid (colors : List (List QColor)) (rows cols : Nat) : Prop :=
  colors.length = rows ∧ ∀ row ∈ colors, row.length = cols

instance (colors : List (List QColor)) (rows cols : Nat) : Decidable (isGrid colors rows cols) := by
  unfold isGrid; infer_instance

/-- Why a run stopped; `none` when it returned. -/
def Run.halt? : Run → Option Halt
  | .ok _ => none
  | .error e => some e.1

/-- The matrix stored for the device `devName` in a scheme document. -/
def exportedMatrix (config : QJsonObject) (devName : String) : List QJsonValue :=
  ((config.value devName).toObject.value "Matrix").toArray

/-- The strings of one row of a stored matrix. -/
def rowStrings (row : QJsonValue) : List String :=
  row.toArray.map QJsonValue.toString

/-- The names of the layout descriptions the dialog tried to open, in order. -/
def requestedAssets (events : List Event) : List String :=
  events.filterMap (fun e =>
    match e with
    | .openAsset _ jsonname => some jsonname
    | _ => none)

/-- The position the keyboard builder gives the button of a key descriptor: the declared
one when the descriptor has a `matrix` member, otherwise that of an untagged button. -/
def keyPos (env : Environment) (obj : QJsonObject) : Int × Int :=
  if obj.contains "matrix" then declaredPos obj else env.untaggedPos

/-- Every key of every row of the layout `layout` that gets a button (it has a label) gets
a position within the matrix. -/
def layoutWithinBounds (env : Environment) (dimens : Nat × Nat) (layout : QJsonObject) :
    Prop :=
  ∀ it ∈ layout, ∀ jt ∈ it.2.toArray,
    (jt.toObject.at "label").isNull = false → inBounds dimens (keyPos env jt.toObject)

instance (env : Environment) (dimens : Nat × Nat) (layout : QJsonObject) :
    Decidable (layoutWithinBounds env dimens layout) := by
  unfold layoutWithinBounds; infer_instance

/-- The dialog chose the layout description `jsonname`: it asked for that description and
no other; `keyboardKeys` is the object of the development file when it opens, otherwise of
the installed file when that opens; when neither opens, nothing is loaded, a close is
requested and no button is registered. -/
def selectsAsset (env : Environment) (jsonname : String) (f : CustomEditor) : Prop :=
  jsonname ∈ requestedAssets f.events ∧
  (∀ n ∈ requestedAssets f.events, n = jsonname) ∧
  (∀ doc, env.develLayouts jsonname = some doc → f.keyboardKeys = doc.object) ∧
  (env.develLayouts jsonname = none →
    ∀ doc, env.prodLayouts jsonname = some doc → f.keyboardKeys = doc.object) ∧
  (env.develLayouts jsonname = none → env.prodLayouts jsonname = none →
    f.keyboardKeys = [] ∧ Event.closeWindow ∈ f.events ∧ f.matrixPushButtons = [])

/-- The registry of `f` is safe for a device of the given dimensions: the stored dimensions
are those, the grid has that many rows and columns, every registered button is tagged
within the matrix, the cell `colors[r][c]` at the tag of every registered button exists, a
click on any registered button returns (its accesses `colors[r][c]` and `colors[r]` are
inside the grid), and `exportToJSON` returns for every device that reports these
dimensions (its accesses `colors[r][c]` are inside the grid). -/
def registrySafe (dimens : Nat × Nat) (f : CustomEditor) : Prop :=
  f.dimens = dimens ∧ isGrid f.colors dimens.1 dimens.2 ∧
  (∀ b ∈ f.matrixPushButtons, inBounds dimens b.matrixpos) ∧
  (∀ b ∈ f.matrixPushButtons, (f.cell b.matrixpos.1 b.matrixpos.2).isSome = true) ∧
  (∀ (device : Device) (sender : Nat), sender < f.matrixPushButtons.length →
    ∃ f1, f.onMatrixPushButtonClicked device sender = Except.ok f1) ∧
  (∀ device : Device, device.matrixDimensions = dimens →
    ∃ f1, f.exportToJSON device = Except.ok f1)

/-- What the end of the constructor keeps of the state `s` the layout left: the dimensions,
the description, the tags of the registry, the layout files asked for, the events so far,
and the shape of the grid. -/
def CustomEditor.keptBy (s f : CustomEditor) : Prop :=
  f.dimens = s.dimens ∧ f.keyboardKeys = s.keyboardKeys ∧
  f.matrixPushButtons.map (fun b => b.matrixpos) =
    s.matrixPushButtons.map (fun b => b.matrixpos) ∧
  requestedAssets f.events = requestedAssets s.events ∧
  (∀ e ∈ s.events, e ∈ f.events) ∧
  (∀ rows cols, isGrid s.colors rows cols → isGrid f.colors rows cols)

/-! ## Inputs of the examples -/

/-- A device used in the examples: a keyboard named Foo that accepts every call. -/
def exampleDevice (dimens : Nat × Nat) (type : String) : Device :=
  { matrixDimensions := dimens
    deviceType := type
    keyboardLayout := "en_US"
    deviceName := "Foo"
    setKeyRow := fun _ _ _ _ => true
    setCustom := true }

/-- A state used in the examples: a grid of one row and two columns holding a red and a
black cell, and two registered buttons tagged `(0, 1)` and `(0, 0)`, the first painted. -/
def exampleState (drawStatus : DrawStatus) : CustomEditor :=
  { dimens := (1, 2)
    colors := [[⟨255, 0, 0⟩, Qt.black]]
    selectedColor := ⟨0, 0, 255⟩
    drawStatus := drawStatus
    matrixPushButtons := [⟨"1", none, (0, 1), true, some ⟨9, 9, 9⟩⟩, ⟨"0", none, (0, 0), true, none⟩]
    keyboardKeys := []
    config := []
    schemeFile := none
    events := [] }

/-- A layout description used in the examples: the layout `en_US` with one row holding a
key `Esc` at matrix position `(0, 1)` and a descriptor without a label. -/
def exampleLayouts : QJsonObject :=
  [("en_US", .object [("row0", .array
    [.object [("label", .string "Esc"), ("matrix", .array [.number (some 0), .number (some 1)])],
     .object []])])]

/-- An environment used in the examples: the description above is the development file
of `razerblade16`, no other layout file opens, and the setting `exportToJSON` is off. -/
def exampleEnv : Environment :=
  { develLayouts := fun jsonname =>
      if jsonname = "razerblade16" then some (.ofObject exampleLayouts) else none
    prodLayouts := fun _ => none
    exportToJSON := false
    untaggedPos := (0, 0) }

/-- A layout description that declares a position outside a matrix of 6 rows: the key
`Esc` of its layout `en_US` is at matrix position `(6, 0)`. -/
def strayLayouts : QJsonObject :=
  [("en_US", .object [("row0", .array
    [.object [("label", .string "Esc"), ("matrix", .array [.number (some 6), .number (some 0)])]])])]

/-- An environment in which the description above is the development file of
`razerblade16`. -/
def strayEnv : Environment :=
  { develLayouts := fun jsonname =>
      if jsonname = "razerblade16" then some (.ofObject strayLayouts) else none
    prodLayouts := fun _ => none
    exportToJSON := false
    untaggedPos := (0, 0) }

/-- A layout description whose key `A` declares a `matrix` array of one item, 6, before a
key `B` at matrix position `(0, 1)`. -/
def shortLayouts : QJsonObject :=
  [("en_US", .object [("row0", .array
    [.object [("label", .string "A"), ("matrix", .array [.number (some 6)])],
     .object [("label", .string "B"), ("matrix", .array [.number (some 0), .number (some 1)])]])])]

/-- An environment in which the description above is the development file of
`razerblade16`. -/
def shortEnv : Environment :=
  { develLayouts := fun jsonname =>
      if jsonname = "razerblade16" then some (.ofObject shortLayouts) else none
    prodLayouts := fun _ => none
    exportToJSON := false
    untaggedPos := (0, 0) }

/-- The state of the editor of a 6 by 16 keyboard whose layout has the one key `Esc`
tagged `(0, 1)`, as the constructor leaves it. -/
def builtState : CustomEditor :=
  Run.lastState (CustomEditor.new exampleEnv (exampleDevice (6, 16) "keyboard") false none)

/-! ## Facts about the containers -/

theorem QVector.at?_eq_getElem? {α : Type} (v : List α) (i : Int) (h : 0 ≤ i) :
    QVector.at? v i = v[i.toNat]? := by
  simp [QVector.at?, h]

theorem QVector.at?_of_lt {α : Type} (v : List α) (i : Int) (h0 : 0 ≤ i) (h1 : i < v.length) :
    ∃ x, QVector.at? v i = some x ∧ x ∈ v := by
  have hlt : i.toNat < v.length := by omega
  refine ⟨v[i.toNat], ?_, List.getElem_mem hlt⟩
  simp [QVector.at?, h0, List.getElem?_eq_getElem hlt]

theorem QVector.at?_set_self {α : Type} (v : List α) (i : Int) (x : α) (h0 : 0 ≤ i)
    (h1 : i < v.length) : QVector.at? (v.set i.toNat x) i = some x := by
  have hlt : i.toNat < v.length := by omega
  simp [QVector.at?, h0, hlt]

/-! ## The click handler -/

/-- The method `updateKeyrow` returns for a row of the grid, and changes the trace only. -/
theorem CustomEditor.updateKeyrow_ok (device : Device) (row : Int) (s : CustomEditor)
    (rowColors : List QColor) (h : QVector.at? s.colors row = some rowColors) :
    ∃ (b : Bool) (evs : List Event),
      s.updateKeyrow device row = Except.ok (b, { s with events := s.events ++ evs }) := by
  unfold CustomEditor.updateKeyrow
  simp only [h]
  by_cases hk : device.setKeyRow row 0 ((s.dimens.2 : Int) - 1) rowColors = true
  · exact ⟨device.setCustom, [Event.setKeyRow row 0 ((s.dimens.2 : Int) - 1) rowColors,
      Event.setCustom], by simp [hk, CustomEditor.emit]⟩
  · exact ⟨false, [Event.setKeyRow row 0 ((s.dimens.2 : Int) - 1) rowColors],
      by simp [hk, CustomEditor.emit]⟩

/-- A click on a registered button tagged within the grid returns: the cell at the tag
holds the painted colour, the clicked button is repainted, and only the trace changes
besides. -/
theorem CustomEditor.onMatrixPushButtonClicked_ok (device : Device) (s : CustomEditor)
    (sender : Nat) (btn : MatrixPushButton) (rowColors : List QColor)
    (hbtn : s.matrixPushButtons[sender]? = some btn)
    (hrow : QVector.at? s.colors btn.matrixpos.1 = some rowColors)
    (h0 : 0 ≤ btn.matrixpos.2) (h1 : btn.matrixpos.2 < rowColors.length) :
    ∃ evs : List Event, s.onMatrixPushButtonClicked device sender = Except.ok
      { s with
        colors := s.colors.set btn.matrixpos.1.toNat (rowColors.set btn.matrixpos.2.toNat
          (match s.drawStatus with
            | .set => s.selectedColor
            | .clear => Qt.black))
        matrixPushButtons := s.matrixPushButtons.set sender
          (match s.drawStatus with
            | .set => btn.setButtonColor s.selectedColor
            | .clear => btn.resetButtonColor)
        events := s.events ++ evs } := by
  have hr0 : 0 ≤ btn.matrixpos.1 := by
    by_contra hneg
    simp [QVector.at?, hneg] at hrow
  have hrlt : btn.matrixpos.1.toNat < s.colors.length := by
    simp only [QVector.at?, hr0, if_true] at hrow
    exact (List.getElem?_eq_some_iff.mp hrow).1
  have hrlt2 : btn.matrixpos.1 < (s.colors.length : Int) := by omega
  cases hd : s.drawStatus
  all_goals
    simp only [CustomEditor.onMatrixPushButtonClicked, hbtn, hrow, QVector.set?, h0, h1,
      and_self, if_true, hd]
    obtain ⟨b, evs, hup⟩ := CustomEditor.updateKeyrow_ok device btn.matrixpos.1
      { s with
        colors := s.colors.set btn.matrixpos.1.toNat (rowColors.set btn.matrixpos.2.toNat
          (match s.drawStatus with
            | .set => s.selectedColor
            | .clear => Qt.black))
        matrixPushButtons := s.matrixPushButtons.set sender
          (match s.drawStatus with
            | .set => btn.setButtonColor s.selectedColor
            | .clear => btn.resetButtonColor) } _
      (QVector.at?_set_self s.colors btn.matrixpos.1 _ hr0 hrlt2)
    simp only [hd] at hup
    exact ⟨evs, by rw [hup]⟩

/-- C1. A Set click: in a state whose grid is `rows` by `cols`, with selected colour `X`,
a click on a registered button tagged `(r, c)` within bounds returns, and afterwards the
model cell `colors[r][c]` is `X` and the clicked button displays `X`. -/
theorem onMatrixPushButtonClicked_set (device : Device) (s : CustomEditor) (rows cols : Nat)
    (sender : Nat) (btn : MatrixPushButton) (r c : Int) (X : QColor)
    (hgrid : isGrid s.colors rows cols)
    (hbtn : s.matrixPushButtons[sender]? = some btn) (hpos : btn.matrixpos = (r, c))
    (hr : 0 ≤ r ∧ r < rows) (hc : 0 ≤ c ∧ c < cols)
    (hset : s.drawStatus = DrawStatus.set) (hX : s.selectedColor = X) :
    ∃ s1, s.onMatrixPushButtonClicked device sender = Except.ok s1 ∧
      s1.cell r c = some X ∧
      ∃ btn1, s1.matrixPushButtons[sender]? = some btn1 ∧ btn1.buttonColor = some X ∧
        btn1.matrixpos = (r, c) := by
  obtain ⟨hlen, hrow⟩ := hgrid
  obtain ⟨rowColors, hat, hmem⟩ := QVector.at?_of_lt s.colors r hr.1 (by omega)
  have hrl : rowColors.length = cols := hrow _ hmem
  have hp1 : btn.matrixpos.1 = r := by rw [hpos]
  have hp2 : btn.matrixpos.2 = c := by rw [hpos]
  have hsender : sender < s.matrixPushButtons.length := (List.getElem?_eq_some_iff.mp hbtn).1
  obtain ⟨evs, hok⟩ := CustomEditor.onMatrixPushButtonClicked_ok device s sender btn rowColors
    hbtn (by rw [hp1]; exact hat) (by rw [hp2]; exact hc.1) (by rw [hp2]; omega)
  refine ⟨_, hok, ?_, ?_⟩
  · simp only [CustomEditor.cell, hp1, hp2, hset, hX]
    rw [QVector.at?_set_self s.colors r _ hr.1 (by omega)]
    exact QVector.at?_set_self rowColors c _ hc.1 (by omega)
  · refine ⟨btn.setButtonColor X, ?_, rfl, ?_⟩
    · simp [hset, hX, hsender]
    · simpa [MatrixPushButton.setButtonColor] using hpos

theorem onMatrixPushButtonClicked_set_witness :
    isGrid (exampleState .set).colors 1 2 ∧
    (∃ s1, (exampleState .set).onMatrixPushButtonClicked (exampleDevice (1, 2) "keyboard") 0
        = Except.ok s1 ∧
      s1.cell 0 1 = some ⟨0, 0, 255⟩ ∧
      ∃ btn1, s1.matrixPushButtons[0]? = some btn1 ∧ btn1.buttonColor = some ⟨0, 0, 255⟩ ∧
        btn1.matrixpos = (0, 1)) :=
  ⟨by decide,
    onMatrixPushButtonClicked_set (exampleDevice (1, 2) "keyboard") (exampleState .set) 1 2 0
      ⟨"1", none, (0, 1), true, some ⟨9, 9, 9⟩⟩ 0 1 ⟨0, 0, 255⟩ (by decide) rfl rfl
      (by decide) (by decide) rfl rfl⟩

/-- C2. A Clear click: in a state whose grid is `rows` by `cols`, whatever the selected
colour and the previous value of the cell, a click on a registered button tagged `(r, c)`
within bounds returns, and afterwards the model cell `colors[r][c]` is black and the
clicked button is in its reset appearance. -/
theorem onMatrixPushButtonClicked_clear (device : Device) (s : CustomEditor) (rows cols : Nat)
    (sender : Nat) (btn : MatrixPushButton) (r c : Int)
    (hgrid : isGrid s.colors rows cols)
    (hbtn : s.matrixPushButtons[sender]? = some btn) (hpos : btn.matrixpos = (r, c))
    (hr : 0 ≤ r ∧ r < rows) (hc : 0 ≤ c ∧ c < cols)
    (hclear : s.drawStatus = DrawStatus.clear) :
    ∃ s1, s.onMatrixPushButtonClicked device sender = Except.ok s1 ∧
      s1.cell r c = some Qt.black ∧
      ∃ btn1, s1.matrixPushButtons[sender]? = some btn1 ∧ btn1.buttonColor = none ∧
        btn1.matrixpos = (r, c) := by
  obtain ⟨hlen, hrow⟩ := hgrid
  obtain ⟨rowColors, hat, hmem⟩ := QVector.at?_of_lt s.colors r hr.1 (by omega)
  have hrl : rowColors.length = cols := hrow _ hmem
  have hp1 : btn.matrixpos.1 = r := by rw [hpos]
  have hp2 : btn.matrixpos.2 = c := by rw [hpos]
  have hsender : sender < s.matrixPushButtons.length := (List.getElem?_eq_some_iff.mp hbtn).1
  obtain ⟨evs, hok⟩ := CustomEditor.onMatrixPushButtonClicked_ok device s sender btn rowColors
    hbtn (by rw [hp1]; exact hat) (by rw [hp2]; exact hc.1) (by rw [hp2]; omega)
  refine ⟨_, hok, ?_, ?_⟩
  · simp only [CustomEditor.cell, hp1, hp2, hclear]
    rw [QVector.at?_set_self s.colors r _ hr.1 (by omega)]
    exact QVector.at?_set_self rowColors c _ hc.1 (by omega)
  · refine ⟨btn.resetButtonColor, ?_, rfl, ?_⟩
    · simp [hclear, hsender]
    · simpa [MatrixPushButton.resetButtonColor] using hpos

theorem onMatrixPushButtonClicked_clear_witness :
    isGrid (exampleState .clear).colors 1 2 ∧
    (∃ s1, (exampleState .clear).onMatrixPushButtonClicked (exampleDevice (1, 2) "keyboard") 0
        = Except.ok s1 ∧
      s1.cell 0 1 = some Qt.black ∧
      ∃ btn1, s1.matrixPushButtons[0]? = some btn1 ∧ btn1.buttonColor = none ∧
        btn1.matrixpos = (0, 1)) :=
  ⟨by decide,
    onMatrixPushButtonClicked_clear (exampleDevice (1, 2) "keyboard") (exampleState .clear) 1 2 0
      ⟨"1", none, (0, 1), true, some ⟨9, 9, 9⟩⟩ 0 1 (by decide) rfl rfl
      (by decide) (by decide) rfl⟩

/-- The mode toggle `setDrawStatusClear` puts the editor in the mode of C2 and changes
nothing else the click reads. -/
theorem setDrawStatusClear_spec (s : CustomEditor) :
    s.setDrawStatusClear.drawStatus = DrawStatus.clear ∧
    s.setDrawStatusClear.colors = s.colors ∧
    s.setDrawStatusClear.matrixPushButtons = s.matrixPushButtons :=
  ⟨rfl, rfl, rfl⟩

/-! ## Clearing everything -/

/-- C3. After `clearAll`, from any state: every cell of the grid is black, the grid has as
many rows as before and every row as many cells as before, and every registered button is
in its reset appearance (the registry keeps its buttons and their tags). -/
theorem clearAll_spec (s : CustomEditor) :
    (∀ row ∈ s.clearAll.colors, ∀ color ∈ row, color = Qt.black) ∧
    s.clearAll.colors.length = s.colors.length ∧
    s.clearAll.colors.map List.length = s.colors.map List.length ∧
    (∀ btn ∈ s.clearAll.matrixPushButtons, btn.buttonColor = none) ∧
    s.clearAll.matrixPushButtons.map (fun btn => btn.matrixpos) =
      s.matrixPushButtons.map (fun btn => btn.matrixpos) ∧
    s.clearAll.dimens = s.dimens := by
  refine ⟨?_, ?_, ?_, ?_, ?_, rfl⟩
  · intro row hrow color hcolor
    simp only [CustomEditor.clearAll, List.mem_map] at hrow
    obtain ⟨old, _, rfl⟩ := hrow
    simp only [List.mem_map] at hcolor
    obtain ⟨_, _, rfl⟩ := hcolor
    rfl
  · simp [CustomEditor.clearAll]
  · simp [CustomEditor.clearAll, Function.comp_def]
  · intro btn hbtn
    simp only [CustomEditor.clearAll, List.mem_map] at hbtn
    obtain ⟨old, _, rfl⟩ := hbtn
    rfl
  · simp [CustomEditor.clearAll, Function.comp_def, MatrixPushButton.resetButtonColor]

/-! ## Export for a device that is not a keyboard -/

/-- C8. For a device whose type is not `keyboard`, `exportToJSON` returns with the state
it was given: no file is written, nothing is added to the trace, and `config`, the grid
and the stored dimensions are what they were. -/
theorem exportToJSON_not_keyboard (device : Device) (s : CustomEditor)
    (htype : device.deviceType ≠ "keyboard") :
    s.exportToJSON device = Except.ok s ∧
    (Run.lastState (s.exportToJSON device)).schemeFile = s.schemeFile ∧
    (Run.lastState (s.exportToJSON device)).events = s.events ∧
    (Run.lastState (s.exportToJSON device)).config = s.config ∧
    (Run.lastState (s.exportToJSON device)).colors = s.colors ∧
    (Run.lastState (s.exportToJSON device)).dimens = s.dimens := by
  have h : s.exportToJSON device = Except.ok s := by
    simp [CustomEditor.exportToJSON, htype]
  simp [h, Run.lastState]

theorem exportToJSON_not_keyboard_witness :
    (exampleDevice (1, 2) "mousemat").deviceType ≠ "keyboard" ∧
    (exampleState .set).exportToJSON (exampleDevice (1, 2) "mousemat")
      = Except.ok (exampleState .set) :=
  ⟨by decide, (exportToJSON_not_keyboard (exampleDevice (1, 2) "mousemat") (exampleState .set)
    (by decide)).1⟩

/-! ## What the keyboard builder registers -/

theorem QJsonObject.at_of_contains (o : QJsonObject) (key : String)
    (h : o.contains key = true) : o.at key = o.value key := by
  simp [QJsonObject.at, QJsonObject.ref, h]

/-- The value of a contained key is the value of one of the members. -/
theorem QJsonObject.value_mem (o : QJsonObject) (key : String)
    (h : o.contains key = true) : ∃ kv ∈ o, kv.2 = o.value key := by
  unfold QJsonObject.value
  cases hf : o.find? (fun kv => kv.1 == key) with
  | some kv => exact ⟨kv, List.mem_of_find?_eq_some hf, rfl⟩
  | none =>
    simp only [QJsonObject.contains, List.any_eq_true] at h
    obtain ⟨kv, hmem, hkey⟩ := h
    have := List.find?_eq_none.mp hf kv hmem
    exact absurd hkey this

/-- One key: the last state differs from the first by at most one new button at the end
of the registry, and that button sits where `keyPos` says. -/
theorem CustomEditor.addKey_lastState (env : Environment) (obj : QJsonObject) (s : CustomEditor) :
    ∃ bs : List MatrixPushButton,
      Run.lastState (s.addKey env obj) = { s with matrixPushButtons := s.matrixPushButtons ++ bs } ∧
      ∀ b ∈ bs, (obj.at "label").isNull = false ∧ keyPos env obj = b.matrixpos := by
  unfold CustomEditor.addKey
  by_cases hl : (obj.at "label").isNull = false
  · rw [if_pos hl]
    refine ⟨_, rfl, ?_⟩
    intro b hb
    simp only [List.mem_singleton] at hb
    subst hb
    refine ⟨hl, ?_⟩
    by_cases hm : obj.contains "matrix" = true <;>
      by_cases hdis : obj.contains "disabled" = true <;>
        simp [keyPos, hm, hdis, MatrixPushButton.setMatrixPos, MatrixPushButton.new]
  · rw [if_neg hl]
    exact ⟨[], by simp [Run.lastState], by simp⟩

/-- One row: only the registry grows, by buttons of keys of the row. -/
theorem CustomEditor.addKeys_lastState (env : Environment) (row : List QJsonValue) :
    ∀ s : CustomEditor, ∃ bs : List MatrixPushButton,
      Run.lastState (CustomEditor.addKeys env row s) =
        { s with matrixPushButtons := s.matrixPushButtons ++ bs } ∧
      ∀ b ∈ bs, ∃ jt ∈ row, (jt.toObject.at "label").isNull = false ∧
        keyPos env jt.toObject = b.matrixpos := by
  induction row with
  | nil => intro s; exact ⟨[], by simp [CustomEditor.addKeys, Run.lastState], by simp⟩
  | cons jt rest ih =>
    intro s
    obtain ⟨bs1, h1, hb1⟩ := CustomEditor.addKey_lastState env jt.toObject s
    unfold CustomEditor.addKeys
    cases hk : s.addKey env jt.toObject with
    | error e =>
      rw [hk] at h1
      refine ⟨bs1, h1, ?_⟩
      intro b hb
      exact ⟨jt, List.mem_cons_self _ _, hb1 b hb⟩
    | ok s1 =>
      rw [hk] at h1
      simp only [Run.lastState] at h1
      obtain ⟨bs2, h2, hb2⟩ := ih s1
      subst h1
      refine ⟨bs1 ++ bs2, ?_, ?_⟩
      · simpa [List.append_assoc] using h2
      · intro b hb
        rcases List.mem_append.mp hb with h | h
        · exact ⟨jt, List.mem_cons_self _ _, hb1 b h⟩
        · obtain ⟨jt2, hmem, hrest⟩ := hb2 b h
          exact ⟨jt2, List.mem_cons_of_mem _ hmem, hrest⟩

/-- All rows of a layout: only the registry grows, by buttons of keys of the layout. -/
theorem CustomEditor.addRows_lastState (env : Environment) (layout : QJsonObject) :
    ∀ s : CustomEditor, ∃ bs : List MatrixPushButton,
      Run.lastState (CustomEditor.addRows env layout s) =
        { s with matrixPushButtons := s.matrixPushButtons ++ bs } ∧
      ∀ b ∈ bs, ∃ it ∈ layout, ∃ jt ∈ it.2.toArray, (jt.toObject.at "label").isNull = false ∧
        keyPos env jt.toObject = b.matrixpos := by
  induction layout with
  | nil => intro s; exact ⟨[], by simp [CustomEditor.addRows, Run.lastState], by simp⟩
  | cons it rest ih =>
    intro s
    obtain ⟨bs1, h1, hb1⟩ := CustomEditor.addKeys_lastState env it.2.toArray s
    unfold CustomEditor.addRows
    cases hk : CustomEditor.addKeys env it.2.toArray s with
    | error e =>
      rw [hk] at h1
      refine ⟨bs1, h1, ?_⟩
      intro b hb
      exact ⟨it, List.mem_cons_self _ _, hb1 b hb⟩
    | ok s1 =>
      rw [hk] at h1
      simp only [Run.lastState] at h1
      obtain ⟨bs2, h2, hb2⟩ := ih s1
      subst h1
      refine ⟨bs1 ++ bs2, ?_, ?_⟩
      · simpa [List.append_assoc] using h2
      · intro b hb
        rcases List.mem_append.mp hb with h | h
        · exact ⟨it, List.mem_cons_self _ _, hb1 b h⟩
        · obtain ⟨it2, hmem, hrest⟩ := hb2 b h
          exact ⟨it2, List.mem_cons_of_mem _ hmem, hrest⟩

/-- The loop over the keys of a row always returns. -/
theorem CustomEditor.addKeys_returns (env : Environment) (row : List QJsonValue) :
    ∀ s : CustomEditor, ∃ s1, CustomEditor.addKeys env row s = Except.ok s1 := by
  induction row with
  | nil => intro s; exact ⟨s, rfl⟩
  | cons jt rest ih =>
    intro s
    unfold CustomEditor.addKeys CustomEditor.addKey
    by_cases hl : (jt.toObject.at "label").isNull = false
    · simp only [hl, if_true]
      exact ih _
    · simp only [hl, if_false]
      exact ih _

/-- The loop over the rows of a layout always returns. -/
theorem CustomEditor.addRows_returns (env : Environment) (layout : QJsonObject) :
    ∀ s : CustomEditor, ∃ s1, CustomEditor.addRows env layout s = Except.ok s1 := by
  induction layout with
  | nil => intro s; exact ⟨s, rfl⟩
  | cons it rest ih =>
    intro s
    obtain ⟨s1, h1⟩ := CustomEditor.addKeys_returns env it.2.toArray s
    unfold CustomEditor.addRows
    rw [h1]
    exact ih s1

/-- The keyboard builder always returns. -/
theorem CustomEditor.generateKeyboard_returns (env : Environment) (device : Device)
    (s : CustomEditor) : ∃ s1, s.generateKeyboard env device = Except.ok s1 :=
  CustomEditor.addRows_returns env _ _

/-- The resolution of the layout only adds notices and close requests to the trace, and
the layout it yields is empty or the entry of a member of the description. -/
theorem CustomEditor.resolveKeyboardLayout_spec (device : Device) (s : CustomEditor) :
    ∃ evs : List Event,
      (s.resolveKeyboardLayout device).2 = { s with events := s.events ++ evs } ∧
      requestedAssets evs = [] ∧
      ((s.resolveKeyboardLayout device).1 = [] ∨
        ∃ layout ∈ s.keyboardKeys, (s.resolveKeyboardLayout device).1 = layout.2.toObject) := by
  unfold CustomEditor.resolveKeyboardLayout
  by_cases hc : device.keyboardLayout ≠ "unknown" ∧
      s.keyboardKeys.contains device.keyboardLayout = true
  · rw [if_pos hc]
    refine ⟨[], by simp, rfl, Or.inr ?_⟩
    obtain ⟨kv, hmem, hval⟩ := QJsonObject.value_mem _ _ hc.2
    exact ⟨kv, hmem, by simp [QJsonObject.at_of_contains _ _ hc.2, hval]⟩
  · rw [if_neg hc]
    cases hf : fallbackLangs.find? (fun lang => s.keyboardKeys.contains lang) with
    | none =>
      by_cases hu : device.keyboardLayout = "unknown"
      · exact ⟨[Event.showInfo Info.layoutUnknown, Event.showInfo Info.noFallbackLayout,
          Event.closeWindow],
          by simp [hu, CustomEditor.emit, CustomEditor.closeWindow], rfl, Or.inl rfl⟩
      · exact ⟨[Event.showInfo (Info.layoutUnsupported device.keyboardLayout),
          Event.closeWindow, Event.showInfo Info.noFallbackLayout, Event.closeWindow],
          by simp [hu, CustomEditor.emit, CustomEditor.closeWindow], rfl, Or.inl rfl⟩
    | some lang =>
      have hcont : s.keyboardKeys.contains lang = true := by
        simpa using List.find?_some hf
      obtain ⟨kv, hmem, hval⟩ := QJsonObject.value_mem _ _ hcont
      by_cases hu : device.keyboardLayout = "unknown"
      · exact ⟨[Event.showInfo Info.layoutUnknown],
          by simp [hu, CustomEditor.emit], rfl,
          Or.inr ⟨kv, hmem, by simp [QJsonObject.at_of_contains _ _ hcont, hval]⟩⟩
      · exact ⟨[Event.showInfo (Info.layoutUnsupported device.keyboardLayout),
          Event.closeWindow],
          by simp [hu, CustomEditor.emit, CustomEditor.closeWindow], rfl,
          Or.inr ⟨kv, hmem, by simp [QJsonObject.at_of_contains _ _ hcont, hval]⟩⟩

/-- The keyboard builder adds notices and close requests to the trace and buttons of keys
of the loaded description to the registry, and changes nothing else. -/
theorem CustomEditor.generateKeyboard_lastState (env : Environment) (device : Device)
    (s : CustomEditor) :
    ∃ (evs : List Event) (bs : List MatrixPushButton),
      Run.lastState (s.generateKeyboard env device) =
        { s with events := s.events ++ evs, matrixPushButtons := s.matrixPushButtons ++ bs } ∧
      requestedAssets evs = [] ∧
      ∀ b ∈ bs, ∃ layout ∈ s.keyboardKeys, ∃ it ∈ layout.2.toObject, ∃ jt ∈ it.2.toArray,
        (jt.toObject.at "label").isNull = false ∧ keyPos env jt.toObject = b.matrixpos := by
  obtain ⟨evs, hs, hreq, hlayout⟩ := CustomEditor.resolveKeyboardLayout_spec device s
  obtain ⟨bs, hlast, hbs⟩ := CustomEditor.addRows_lastState env (s.resolveKeyboardLayout device).1
    (s.resolveKeyboardLayout device).2
  refine ⟨evs, bs, ?_, hreq, ?_⟩
  · unfold CustomEditor.generateKeyboard
    rw [hlast, hs]
  · intro b hb
    obtain ⟨it, hit, rest⟩ := hbs b hb
    rcases hlayout with hnil | ⟨layout, hmem, heq⟩
    · rw [hnil] at hit
      exact absurd hit (List.not_mem_nil _)
    · exact ⟨layout, hmem, it, heq ▸ hit, rest⟩

/-! ## Locale resolution -/

/-- C7. Locale resolution in `generateKeyboard`, for every loaded description
`keyboardKeys` and every locale reported by the device. When the locale is not `unknown`
and the description contains it, the rows built are those of its entry. Otherwise, after
the notices of the resolution, the rows built are those of the entry of the first of
`de_DE`, `en_US`, `en_GB` the description contains; and when it contains none of the three,
the builder returns having requested a close and registered no button. -/
theorem generateKeyboard_locale (env : Environment) (device : Device) (s : CustomEditor) :
    (device.keyboardLayout ≠ "unknown" →
      s.keyboardKeys.contains device.keyboardLayout = true →
      s.generateKeyboard env device =
        CustomEditor.addRows env (s.keyboardKeys.value device.keyboardLayout).toObject s) ∧
    (¬ (device.keyboardLayout ≠ "unknown" ∧
        s.keyboardKeys.contains device.keyboardLayout = true) →
      ∃ evs : List Event,
        (s.keyboardKeys.contains "de_DE" = true →
          s.generateKeyboard env device =
            CustomEditor.addRows env (s.keyboardKeys.value "de_DE").toObject
              { s with events := s.events ++ evs }) ∧
        (s.keyboardKeys.contains "de_DE" = false → s.keyboardKeys.contains "en_US" = true →
          s.generateKeyboard env device =
            CustomEditor.addRows env (s.keyboardKeys.value "en_US").toObject
              { s with events := s.events ++ evs }) ∧
        (s.keyboardKeys.contains "de_DE" = false → s.keyboardKeys.contains "en_US" = false →
          s.keyboardKeys.contains "en_GB" = true →
          s.generateKeyboard env device =
            CustomEditor.addRows env (s.keyboardKeys.value "en_GB").toObject
              { s with events := s.events ++ evs }) ∧
        (s.keyboardKeys.contains "de_DE" = false → s.keyboardKeys.contains "en_US" = false →
          s.keyboardKeys.contains "en_GB" = false →
          ∃ s1, s.generateKeyboard env device = Except.ok s1 ∧
            Event.showInfo Info.noFallbackLayout ∈ s1.events ∧
            Event.closeWindow ∈ s1.events ∧
            s1.matrixPushButtons = s.matrixPushButtons)) := by
  constructor
  · intro hL hK
    simp [CustomEditor.generateKeyboard, CustomEditor.resolveKeyboardLayout, hL, hK,
      QJsonObject.at_of_contains]
  · intro hnot
    have hcond : device.keyboardLayout = "unknown" ∨
        (device.keyboardLayout ≠ "unknown" ∧
          s.keyboardKeys.contains device.keyboardLayout = false) := by
      by_cases hu : device.keyboardLayout = "unknown"
      · exact Or.inl hu
      · refine Or.inr ⟨hu, ?_⟩
        cases hc : s.keyboardKeys.contains device.keyboardLayout
        · rfl
        · exact absurd ⟨hu, hc⟩ hnot
    refine ⟨if device.keyboardLayout = "unknown" then [Event.showInfo Info.layoutUnknown]
      else [Event.showInfo (Info.layoutUnsupported device.keyboardLayout), Event.closeWindow],
      ?_, ?_, ?_, ?_⟩
    · intro h1
      rcases hcond with hu | ⟨hu, hK⟩ <;>
        simp [CustomEditor.generateKeyboard, CustomEditor.resolveKeyboardLayout, hu,
          fallbackLangs, h1, QJsonObject.at_of_contains, CustomEditor.emit,
          CustomEditor.closeWindow, *]
    · intro h1 h2
      rcases hcond with hu | ⟨hu, hK⟩ <;>
        simp [CustomEditor.generateKeyboard, CustomEditor.resolveKeyboardLayout, hu,
          fallbackLangs, h1, h2, QJsonObject.at_of_contains, CustomEditor.emit,
          CustomEditor.closeWindow, *]
    · intro h1 h2 h3
      rcases hcond with hu | ⟨hu, hK⟩ <;>
        simp [CustomEditor.generateKeyboard, CustomEditor.resolveKeyboardLayout, hu,
          fallbackLangs, h1, h2, h3, QJsonObject.at_of_contains, CustomEditor.emit,
          CustomEditor.closeWindow, *]
    · intro h1 h2 h3
      rcases hcond with hu | ⟨hu, hK⟩ <;>
        simp [CustomEditor.generateKeyboard, CustomEditor.resolveKeyboardLayout, hu,
          fallbackLangs, h1, h2, h3, CustomEditor.emit, CustomEditor.closeWindow,
          CustomEditor.addRows, *]

theorem generateKeyboard_locale_witness :
    ((exampleDevice (6, 16) "keyboard").keyboardLayout ≠ "unknown" ∧
      QJsonObject.contains exampleLayouts (exampleDevice (6, 16) "keyboard").keyboardLayout = true ∧
      CustomEditor.generateKeyboard exampleEnv (exampleDevice (6, 16) "keyboard")
          { exampleState .set with keyboardKeys := exampleLayouts } =
        CustomEditor.addRows exampleEnv (QJsonObject.value exampleLayouts "en_US").toObject
          { exampleState .set with keyboardKeys := exampleLayouts }) ∧
    (QJsonObject.contains exampleLayouts "xx_YY" = false ∧
      QJsonObject.contains exampleLayouts "de_DE" = false ∧
      QJsonObject.contains exampleLayouts "en_GB" = false ∧
      ∃ evs : List Event,
        CustomEditor.generateKeyboard exampleEnv
            { exampleDevice (6, 16) "keyboard" with keyboardLayout := "xx_YY" }
            { exampleState .set with keyboardKeys := exampleLayouts } =
          CustomEditor.addRows exampleEnv (QJsonObject.value exampleLayouts "en_US").toObject
            { exampleState .set with
              keyboardKeys := exampleLayouts
              events := (exampleState .set).events ++ evs }) ∧
    (∃ s1, CustomEditor.generateKeyboard exampleEnv
          { exampleDevice (6, 16) "keyboard" with keyboardLayout := "xx_YY" }
          (exampleState .set) = Except.ok s1 ∧
        Event.showInfo Info.noFallbackLayout ∈ s1.events ∧
        Event.closeWindow ∈ s1.events ∧
        s1.matrixPushButtons = (exampleState .set).matrixPushButtons) :=
  ⟨⟨by decide, by decide,
      (generateKeyboard_locale exampleEnv (exampleDevice (6, 16) "keyboard")
        { exampleState .set with keyboardKeys := exampleLayouts }).1 (by decide) (by decide)⟩,
    ⟨by decide, by decide, by decide,
      match (generateKeyboard_locale exampleEnv
        { exampleDevice (6, 16) "keyboard" with keyboardLayout := "xx_YY" }
        { exampleState .set with keyboardKeys := exampleLayouts }).2 (by decide) with
      | ⟨evs, _, h, _, _⟩ => ⟨evs, h (by decide) (by decide)⟩⟩,
    match (generateKeyboard_locale exampleEnv
      { exampleDevice (6, 16) "keyboard" with keyboardLayout := "xx_YY" }
      (exampleState .set)).2 (by decide) with
    | ⟨_, _, _, _, h⟩ => h (by decide) (by decide) (by decide)⟩

/-! ## The constructor -/

theorem requestedAssets_append (xs ys : List Event) :
    requestedAssets (xs ++ ys) = requestedAssets xs ++ requestedAssets ys := by
  simp [requestedAssets, List.filterMap_append]

theorem CustomEditor.keptBy_refl (s : CustomEditor) : s.keptBy s :=
  ⟨rfl, rfl, rfl, rfl, fun _ h => h, fun _ _ h => h⟩

theorem CustomEditor.clearAll_kept (s : CustomEditor) : s.keptBy s.clearAll := by
  refine ⟨rfl, rfl, ?_, ?_, ?_, ?_⟩
  · simp [CustomEditor.clearAll, Function.comp_def, MatrixPushButton.resetButtonColor]
  · simp [CustomEditor.clearAll, requestedAssets, List.filterMap_append, List.filterMap_map,
      Function.comp_def]
  · intro e he
    simp [CustomEditor.clearAll, he]
  · intro rows cols hg
    refine ⟨by simpa [CustomEditor.clearAll] using hg.1, ?_⟩
    intro row hrow
    simp only [CustomEditor.clearAll, List.mem_map] at hrow
    obtain ⟨old, hold, rfl⟩ := hrow
    simpa using hg.2 old hold

theorem CustomEditor.loadColours_kept (device : Device) (s : CustomEditor) :
    s.keptBy (Run.lastState (s.loadColours device)) := by
  unfold CustomEditor.loadColours
  cases hf : s.schemeFile with
  | none =>
    exact ⟨rfl, rfl, rfl, by simp [Run.lastState, CustomEditor.emit, requestedAssets_append,
        requestedAssets],
      fun e he => by simp [Run.lastState, CustomEditor.emit, he], fun _ _ h => h⟩
  | some doc =>
    by_cases hn : doc.isNull = true
    · simp only [hn, if_true]
      exact ⟨rfl, rfl, rfl, by simp [Run.lastState, CustomEditor.emit, requestedAssets_append,
        requestedAssets], fun e he => by simp [Run.lastState, CustomEditor.emit, he],
        fun _ _ h => h⟩
    · simp only [hn]
      by_cases hu : (doc.object.ref device.deviceName).2.isUndefined = true
      · simp only [hu, if_true]
        exact ⟨rfl, rfl, rfl, rfl, fun _ h => h, fun _ _ h => h⟩
      · simp only [hu]
        exact ⟨rfl, rfl, rfl, rfl, fun _ h => h, fun _ _ h => h⟩

/-- The constructor ends in a state that keeps what the layout phase left. -/
theorem CustomEditor.new_kept (env : Environment) (device : Device) (launchMatrixDiscovery : Bool)
    (schemeFile : Option QJsonDocument) :
    (Run.lastState ((CustomEditor.initial device schemeFile).buildLayout env device
      launchMatrixDiscovery)).keptBy
      (Run.lastState (CustomEditor.new env device launchMatrixDiscovery schemeFile)) := by
  unfold CustomEditor.new
  cases hb : (CustomEditor.initial device schemeFile).buildLayout env device
      launchMatrixDiscovery with
  | error e => exact CustomEditor.keptBy_refl _
  | ok s =>
    by_cases hc : env.exportToJSON = true ∧ device.deviceType = "keyboard"
    · simp only [hc, and_self, if_true]
      exact CustomEditor.loadColours_kept device s
    · simp only [hc, if_false]
      exact CustomEditor.clearAll_kept s

theorem isGrid_initial (device : Device) (schemeFile : Option QJsonDocument) :
    isGrid (CustomEditor.initial device schemeFile).colors device.matrixDimensions.1
      device.matrixDimensions.2 := by
  refine ⟨by simp [CustomEditor.initial], ?_⟩
  intro row hrow
  simp only [CustomEditor.initial, List.mem_map] at hrow
  obtain ⟨_, _, rfl⟩ := hrow
  simp

/-- Loading a layout description, from a state that asked for none yet: the state after
`if(!parseKeyboardJSON(jsonname)) closeWindow();`. -/
theorem CustomEditor.parseKeyboardJSON_spec (env : Environment) (jsonname : String)
    (s : CustomEditor) (hreq : requestedAssets s.events = []) :
    jsonname ∈ requestedAssets (CustomEditor.closeUnless (s.parseKeyboardJSON env jsonname)).events ∧
    (∀ n ∈ requestedAssets (CustomEditor.closeUnless (s.parseKeyboardJSON env jsonname)).events,
      n = jsonname) ∧
    (∀ doc, env.develLayouts jsonname = some doc →
      (CustomEditor.closeUnless (s.parseKeyboardJSON env jsonname)).keyboardKeys = doc.object) ∧
    (env.develLayouts jsonname = none → ∀ doc, env.prodLayouts jsonname = some doc →
      (CustomEditor.closeUnless (s.parseKeyboardJSON env jsonname)).keyboardKeys = doc.object) ∧
    (env.develLayouts jsonname = none → env.prodLayouts jsonname = none →
      (CustomEditor.closeUnless (s.parseKeyboardJSON env jsonname)).keyboardKeys = s.keyboardKeys ∧
      Event.closeWindow ∈ (CustomEditor.closeUnless (s.parseKeyboardJSON env jsonname)).events) ∧
    (CustomEditor.closeUnless (s.parseKeyboardJSON env jsonname)).matrixPushButtons =
      s.matrixPushButtons ∧
    (CustomEditor.closeUnless (s.parseKeyboardJSON env jsonname)).dimens = s.dimens := by
  have h1 : ∀ d, requestedAssets [Event.openAsset d jsonname] = [jsonname] := fun _ => rfl
  have h2 : ∀ t, requestedAssets [Event.messageBox t] = [] := fun _ => rfl
  have h3 : requestedAssets [Event.closeWindow] = [] := rfl
  unfold CustomEditor.parseKeyboardJSON CustomEditor.closeUnless
  cases hd : env.develLayouts jsonname with
  | some doc =>
    simp [CustomEditor.emit, requestedAssets_append, hreq, h1]
  | none =>
    cases hp : env.prodLayouts jsonname with
    | some doc =>
      simp [CustomEditor.emit, requestedAssets_append, hreq, h1]
      simp [requestedAssets]
    | none =>
      simp [CustomEditor.emit, CustomEditor.closeWindow, requestedAssets_append, hreq,
        h1, h2, h3]
      simp [requestedAssets]

/-- The state the keyboard branch ends the constructor in, in terms of the state
`selectLayout` left: same dimensions, same description, same layout files asked for, the
events kept, and only buttons of keys of the description registered. -/
theorem CustomEditor.new_keyboard (env : Environment) (device : Device)
    (schemeFile : Option QJsonDocument) (htype : device.deviceType = "keyboard") :
    (Run.lastState (CustomEditor.new env device false schemeFile)).dimens =
      device.matrixDimensions ∧
    (Run.lastState (CustomEditor.new env device false schemeFile)).keyboardKeys =
      ((CustomEditor.initial device schemeFile).selectLayout env).keyboardKeys ∧
    requestedAssets (Run.lastState (CustomEditor.new env device false schemeFile)).events =
      requestedAssets ((CustomEditor.initial device schemeFile).selectLayout env).events ∧
    (∀ e ∈ ((CustomEditor.initial device schemeFile).selectLayout env).events,
      e ∈ (Run.lastState (CustomEditor.new env device false schemeFile)).events) ∧
    (∀ pos ∈ (Run.lastState (CustomEditor.new env device false schemeFile)).matrixPushButtons.map
        (fun b => b.matrixpos),
      ∃ layout ∈ ((CustomEditor.initial device schemeFile).selectLayout env).keyboardKeys,
        ∃ it ∈ layout.2.toObject, ∃ jt ∈ it.2.toArray,
          (jt.toObject.at "label").isNull = false ∧ keyPos env jt.toObject = pos) := by
  obtain ⟨hdim, hkeys, hpos, hreq, hev, _⟩ := CustomEditor.new_kept env device false schemeFile
  have hbuild : (CustomEditor.initial device schemeFile).buildLayout env device false =
      ((CustomEditor.initial device schemeFile).selectLayout env).generateKeyboard env device := by
    simp [CustomEditor.buildLayout, htype, CustomEditor.keyboardBranch]
  obtain ⟨evs, bs, hlast, hevs, hbs⟩ := CustomEditor.generateKeyboard_lastState env device
    ((CustomEditor.initial device schemeFile).selectLayout env)
  rw [hbuild, hlast] at hdim hkeys hpos hreq hev
  have hmpb : ((CustomEditor.initial device schemeFile).selectLayout env).matrixPushButtons
      = [] := by
    unfold CustomEditor.selectLayout
    split_ifs
    · exact (CustomEditor.parseKeyboardJSON_spec env _ (CustomEditor.initial device schemeFile) rfl).2.2.2.2.2.1
    · exact (CustomEditor.parseKeyboardJSON_spec env _ (CustomEditor.initial device schemeFile) rfl).2.2.2.2.2.1
    · exact (CustomEditor.parseKeyboardJSON_spec env _ (CustomEditor.initial device schemeFile) rfl).2.2.2.2.2.1
    · rfl
  have hsdim : ((CustomEditor.initial device schemeFile).selectLayout env).dimens
      = device.matrixDimensions := by
    unfold CustomEditor.selectLayout
    split_ifs
    · exact (CustomEditor.parseKeyboardJSON_spec env _ (CustomEditor.initial device schemeFile) rfl).2.2.2.2.2.2
    · exact (CustomEditor.parseKeyboardJSON_spec env _ (CustomEditor.initial device schemeFile) rfl).2.2.2.2.2.2
    · exact (CustomEditor.parseKeyboardJSON_spec env _ (CustomEditor.initial device schemeFile) rfl).2.2.2.2.2.2
    · rfl
  refine ⟨hdim.trans hsdim, hkeys, ?_, ?_, ?_⟩
  · rw [hreq]
    simp [requestedAssets_append, hevs]
  · intro e he
    exact hev e (List.mem_append_left _ he)
  · intro pos hmem
    rw [hpos] at hmem
    simp only [hmpb, List.nil_append, List.mem_map] at hmem
    obtain ⟨b, hb, rfl⟩ := hmem
    exact hbs b hb

/-- With a known pair of dimensions the keyboard branch ends the constructor having chosen
the layout description of that pair. -/
theorem CustomEditor.new_selectsAsset (env : Environment) (device : Device)
    (schemeFile : Option QJsonDocument) (htype : device.deviceType = "keyboard")
    (jsonname : String)
    (hsel : (CustomEditor.initial device schemeFile).selectLayout env =
      CustomEditor.closeUnless
        ((CustomEditor.initial device schemeFile).parseKeyboardJSON env jsonname)) :
    selectsAsset env jsonname (Run.lastState (CustomEditor.new env device false schemeFile)) := by
  obtain ⟨_, hkeys, hreq, hev, hpos⟩ := CustomEditor.new_keyboard env device schemeFile htype
  obtain ⟨p1, p2, p3, p4, p5, _, _⟩ := CustomEditor.parseKeyboardJSON_spec env jsonname
    (CustomEditor.initial device schemeFile) rfl
  rw [hsel] at hkeys hreq hev hpos
  refine ⟨hreq ▸ p1, hreq ▸ p2, ?_, ?_, ?_⟩
  · intro doc hdoc
    rw [hkeys]
    exact p3 doc hdoc
  · intro hnone doc hdoc
    rw [hkeys]
    exact p4 hnone doc hdoc
  · intro hd hp
    obtain ⟨hk, hclose⟩ := p5 hd hp
    have hk2 : (CustomEditor.closeUnless
        ((CustomEditor.initial device schemeFile).parseKeyboardJSON env jsonname)).keyboardKeys
        = [] := hk
    refine ⟨hkeys.trans hk2, hev _ hclose, ?_⟩
    rw [hk2] at hpos
    have hnil : (Run.lastState (CustomEditor.new env device false schemeFile)).matrixPushButtons.map
        (fun b => b.matrixpos) = [] := by
      apply List.eq_nil_iff_forall_not_mem.mpr
      intro pos hmem
      obtain ⟨layout, hl, _⟩ := hpos pos hmem
      exact absurd hl (List.not_mem_nil _)
    exact List.map_eq_nil_iff.mp hnil

/-- C4. Keyboard dimension dispatch in the constructor (device type `keyboard`, no matrix
discovery), read off the state the constructor ends in (or stops in, when `loadColours`
aborts): the dimensions (6,16), (6,22) and (6,25) choose the layout descriptions
`razerblade16`, `razerdefault22` and `razerblade25`; with any other dimensions no layout
description is asked for or loaded, the notice `Unknown matrix dimensions` is shown, a
close is requested, and the registry of key buttons is empty. -/
theorem keyboard_dimension_dispatch (env : Environment) (device : Device)
    (schemeFile : Option QJsonDocument) (htype : device.deviceType = "keyboard") :
    (device.matrixDimensions = (6, 16) →
      selectsAsset env "razerblade16"
        (Run.lastState (CustomEditor.new env device false schemeFile))) ∧
    (device.matrixDimensions = (6, 22) →
      selectsAsset env "razerdefault22"
        (Run.lastState (CustomEditor.new env device false schemeFile))) ∧
    (device.matrixDimensions = (6, 25) →
      selectsAsset env "razerblade25"
        (Run.lastState (CustomEditor.new env device false schemeFile))) ∧
    (device.matrixDimensions ≠ (6, 16) → device.matrixDimensions ≠ (6, 22) →
      device.matrixDimensions ≠ (6, 25) →
      requestedAssets (Run.lastState (CustomEditor.new env device false schemeFile)).events = [] ∧
      (Run.lastState (CustomEditor.new env device false schemeFile)).keyboardKeys = [] ∧
      Event.messageBox "Unknown matrix dimensions" ∈
        (Run.lastState (CustomEditor.new env device false schemeFile)).events ∧
      Event.closeWindow ∈
        (Run.lastState (CustomEditor.new env device false schemeFile)).events ∧
      (Run.lastState (CustomEditor.new env device false schemeFile)).matrixPushButtons = []) := by
  refine ⟨?_, ?_, ?_, ?_⟩
  · intro hd
    apply CustomEditor.new_selectsAsset env device schemeFile htype
    simp [CustomEditor.selectLayout, CustomEditor.initial, hd]
  · intro hd
    apply CustomEditor.new_selectsAsset env device schemeFile htype
    simp [CustomEditor.selectLayout, CustomEditor.initial, hd]
  · intro hd
    apply CustomEditor.new_selectsAsset env device schemeFile htype
    simp [CustomEditor.selectLayout, CustomEditor.initial, hd]
  · intro h16 h22 h25
    obtain ⟨_, hkeys, hreq, hev, hpos⟩ := CustomEditor.new_keyboard env device schemeFile htype
    have hsel : (CustomEditor.initial device schemeFile).selectLayout env =
        ((CustomEditor.initial device schemeFile).emit
          (Event.messageBox "Unknown matrix dimensions")).closeWindow := by
      have e16 : ¬ (device.matrixDimensions.1 = 6 ∧ device.matrixDimensions.2 = 16) :=
        fun h => h16 (Prod.ext h.1 h.2)
      have e22 : ¬ (device.matrixDimensions.1 = 6 ∧ device.matrixDimensions.2 = 22) :=
        fun h => h22 (Prod.ext h.1 h.2)
      have e25 : ¬ (device.matrixDimensions.1 = 6 ∧ device.matrixDimensions.2 = 25) :=
        fun h => h25 (Prod.ext h.1 h.2)
      unfold CustomEditor.selectLayout
      rw [if_neg (by simpa [CustomEditor.initial] using e16),
        if_neg (by simpa [CustomEditor.initial] using e22),
        if_neg (by simpa [CustomEditor.initial] using e25)]
    rw [hsel] at hkeys hreq hev hpos
    refine ⟨hreq, hkeys, ?_, ?_, ?_⟩
    · exact hev _ (by simp [CustomEditor.emit, CustomEditor.closeWindow, CustomEditor.initial])
    · exact hev _ (by simp [CustomEditor.emit, CustomEditor.closeWindow, CustomEditor.initial])
    · have hnil : (Run.lastState
          (CustomEditor.new env device false schemeFile)).matrixPushButtons.map
          (fun b => b.matrixpos) = [] := by
        apply List.eq_nil_iff_forall_not_mem.mpr
        intro pos hmem
        obtain ⟨layout, hl, _⟩ := hpos pos hmem
        exact absurd hl (List.not_mem_nil _)
      exact List.map_eq_nil_iff.mp hnil

theorem keyboard_dimension_dispatch_witness :
    ((exampleDevice (6, 16) "keyboard").deviceType = "keyboard" ∧
      (exampleDevice (6, 16) "keyboard").matrixDimensions = (6, 16) ∧
      selectsAsset exampleEnv "razerblade16"
        (Run.lastState
          (CustomEditor.new exampleEnv (exampleDevice (6, 16) "keyboard") false none))) ∧
    ((exampleDevice (5, 5) "keyboard").deviceType = "keyboard" ∧
      (exampleDevice (5, 5) "keyboard").matrixDimensions ≠ (6, 16) ∧
      (exampleDevice (5, 5) "keyboard").matrixDimensions ≠ (6, 22) ∧
      (exampleDevice (5, 5) "keyboard").matrixDimensions ≠ (6, 25) ∧
      (Run.lastState (CustomEditor.new exampleEnv (exampleDevice (5, 5) "keyboard") false
        none)).matrixPushButtons = []) :=
  ⟨⟨rfl, rfl, (keyboard_dimension_dispatch exampleEnv (exampleDevice (6, 16) "keyboard") none
      rfl).1 rfl⟩,
    ⟨rfl, by decide, by decide, by decide,
      ((keyboard_dimension_dispatch exampleEnv (exampleDevice (5, 5) "keyboard") none
        rfl).2.2.2 (by decide) (by decide) (by decide)).2.2.2.2⟩⟩

/-- C5. Mousemat dispatch in the constructor (device type `mousemat`, no matrix
discovery): with dimensions (1,15) the constructor returns with exactly 15 registered
buttons, the i-th tagged `(0, i)`, and no close requested; with any other dimensions it
returns with no registered button, the notice `Unknown matrix dimensions` shown and a close
requested. -/
theorem mousemat_dispatch (env : Environment) (device : Device)
    (schemeFile : Option QJsonDocument) (htype : device.deviceType = "mousemat") :
    (device.matrixDimensions = (1, 15) →
      ∃ f, CustomEditor.new env device false schemeFile = Except.ok f ∧
        f.matrixPushButtons.length = 15 ∧
        f.matrixPushButtons.map (fun b => b.matrixpos) =
          (List.range 15).map (fun (i : Nat) => ((0 : Int), (i : Int))) ∧
        Event.closeWindow ∉ f.events) ∧
    (device.matrixDimensions ≠ (1, 15) →
      ∃ f, CustomEditor.new env device false schemeFile = Except.ok f ∧
        f.matrixPushButtons = [] ∧
        Event.messageBox "Unknown matrix dimensions" ∈ f.events ∧
        Event.closeWindow ∈ f.events) := by
  have hnk : ¬ (device.deviceType = "keyboard") := by
    rw [htype]
    decide
  constructor
  · intro hd
    refine ⟨((CustomEditor.initial device schemeFile).generateMousemat env).clearAll, ?_, ?_, ?_, ?_⟩
    · simp [CustomEditor.new, CustomEditor.buildLayout, hnk, htype, CustomEditor.initial, hd]
    · simp only [CustomEditor.clearAll, CustomEditor.generateMousemat, CustomEditor.initial, hd,
        List.length_map, List.length_append, List.length_range, List.length_nil]
    · simp [CustomEditor.clearAll, CustomEditor.generateMousemat, CustomEditor.initial, hd,
        Function.comp_def, MatrixPushButton.resetButtonColor, MatrixPushButton.setMatrixPos]
    · simp [CustomEditor.clearAll, CustomEditor.generateMousemat, CustomEditor.initial]
  · intro hd
    have e15 : ¬ (device.matrixDimensions.1 = 1 ∧ device.matrixDimensions.2 = 15) :=
      fun h => hd (Prod.ext h.1 h.2)
    refine ⟨(((CustomEditor.initial device schemeFile).emit
      (Event.messageBox "Unknown matrix dimensions")).closeWindow).clearAll, ?_, ?_, ?_, ?_⟩
    · simp [CustomEditor.new, CustomEditor.buildLayout, hnk, htype, CustomEditor.initial, e15]
    · simp [CustomEditor.clearAll, CustomEditor.emit, CustomEditor.closeWindow,
        CustomEditor.initial]
    · simp [CustomEditor.clearAll, CustomEditor.emit, CustomEditor.closeWindow,
        CustomEditor.initial]
    · simp [CustomEditor.clearAll, CustomEditor.emit, CustomEditor.closeWindow,
        CustomEditor.initial]

theorem mousemat_dispatch_witness :
    ((exampleDevice (1, 15) "mousemat").deviceType = "mousemat" ∧
      (exampleDevice (1, 15) "mousemat").matrixDimensions = (1, 15) ∧
      ∃ f, CustomEditor.new exampleEnv (exampleDevice (1, 15) "mousemat") false none
          = Except.ok f ∧
        f.matrixPushButtons.length = 15 ∧
        f.matrixPushButtons.map (fun b => b.matrixpos) =
          (List.range 15).map (fun (i : Nat) => ((0 : Int), (i : Int))) ∧
        Event.closeWindow ∉ f.events) ∧
    ((exampleDevice (2, 15) "mousemat").deviceType = "mousemat" ∧
      (exampleDevice (2, 15) "mousemat").matrixDimensions ≠ (1, 15) ∧
      ∃ f, CustomEditor.new exampleEnv (exampleDevice (2, 15) "mousemat") false none
          = Except.ok f ∧
        f.matrixPushButtons = [] ∧
        Event.messageBox "Unknown matrix dimensions" ∈ f.events ∧
        Event.closeWindow ∈ f.events) :=
  ⟨⟨rfl, rfl, (mousemat_dispatch exampleEnv (exampleDevice (1, 15) "mousemat") none rfl).1 rfl⟩,
    ⟨rfl, by decide,
      (mousemat_dispatch exampleEnv (exampleDevice (2, 15) "mousemat") none rfl).2 (by decide)⟩⟩

/-! ## Export, then load -/

theorem QJsonObject.contains_insert (o : QJsonObject) (key : String) (v : QJsonValue) :
    (QJsonObject.insert o key v).contains key = true := by
  induction o with
  | nil => simp [QJsonObject.insert, QJsonObject.contains]
  | cons kv rest ih =>
    obtain ⟨k, w⟩ := kv
    unfold QJsonObject.insert
    by_cases hk : k = key
    · simp [hk, QJsonObject.contains]
    · by_cases hlt : keyLess key.data k.data = true
      · simp [hk, hlt, QJsonObject.contains]
      · simp only [hk, hlt, if_false]
        simp only [QJsonObject.contains, List.any_cons] at ih ⊢
        simp [ih]

theorem QJsonObject.value_insert (o : QJsonObject) (key : String) (v : QJsonValue) :
    (QJsonObject.insert o key v).value key = v := by
  induction o with
  | nil => simp [QJsonObject.insert, QJsonObject.value]
  | cons kv rest ih =>
    obtain ⟨k, w⟩ := kv
    unfold QJsonObject.insert
    by_cases hk : k = key
    · simp [hk, QJsonObject.value]
    · by_cases hlt : keyLess key.data k.data = true
      · simp [hk, hlt, QJsonObject.value]
      · simp only [hk, hlt, if_false]
        simp only [QJsonObject.value, Bool.false_eq_true, if_false] at ih ⊢
        have hfind : List.find? (fun kv : String × QJsonValue => kv.1 == key)
            ((k, w) :: QJsonObject.insert rest key v) =
            List.find? (fun kv => kv.1 == key) (QJsonObject.insert rest key v) := by
          simp [List.find?_cons, hk]
        rw [hfind]
        exact ih

/-- What a returning export of a keyboard leaves on disk: a document that parses to an
object holding an object under the name of the device. -/
theorem CustomEditor.exportToJSON_schemeFile (device : Device) (s s1 : CustomEditor)
    (hk : device.deviceType = "keyboard") (hex : s.exportToJSON device = Except.ok s1) :
    ∃ (config1 : QJsonObject) (devSection : QJsonObject),
      s1.schemeFile = some (QJsonDocument.ofObject config1) ∧ s1.config = config1 ∧
      config1.contains device.deviceName = true ∧
      config1.value device.deviceName = QJsonValue.object devSection := by
  unfold CustomEditor.exportToJSON at hex
  rw [if_neg (by simp [hk])] at hex
  cases hp : populateMatrix s.colors s.matrixPushButtons (allocateMatrix device.matrixDimensions) with
  | none => simp [hp] at hex
  | some matrix =>
    simp only [hp] at hex
    injection hex with hex
    subst hex
    by_cases he : s.config.isEmpty = false
    · exact ⟨s.config.insert device.deviceName (QJsonValue.object
          ((QJsonObject.insert [] "Type" (QJsonValue.string device.deviceType)).insert "Matrix"
            (QJsonValue.array matrix))), _,
        by simp [CustomEditor.emit, he], by simp [CustomEditor.emit, he],
        QJsonObject.contains_insert _ _ _, QJsonObject.value_insert _ _ _⟩
    · exact ⟨((QJsonObject.insert [] "Name" (QJsonValue.string "Default Profile")).insert
          "Author" (QJsonValue.string "RazerGenie")).insert device.deviceName
          (QJsonValue.object
            ((QJsonObject.insert [] "Type" (QJsonValue.string device.deviceType)).insert "Matrix"
              (QJsonValue.array matrix))), _,
        by simp [CustomEditor.emit, he], by simp [CustomEditor.emit, he],
        QJsonObject.contains_insert _ _ _, QJsonObject.value_insert _ _ _⟩

/-- C6 fails on the code. For every keyboard and every state, when `exportToJSON` has
written the scheme, `loadColours` for the same device reads it back, finds the device and
halts the process with `abort()`: it never returns, and no colour of the stored matrix
reaches the grid. -/
theorem loadColours_after_export_aborts (device : Device) (s s1 : CustomEditor)
    (hk : device.deviceType = "keyboard") (hex : s.exportToJSON device = Except.ok s1) :
    Run.halt? (s1.loadColours device) = some Halt.abort ∧
    (Run.lastState (s1.loadColours device)).colors = s.colors := by
  obtain ⟨config1, devSection, hfile, _, hcont, hval⟩ :=
    CustomEditor.exportToJSON_schemeFile device s s1 hk hex
  have hcol : s1.colors = s.colors := by
    unfold CustomEditor.exportToJSON at hex
    rw [if_neg (by simp [hk])] at hex
    cases hp : populateMatrix s.colors s.matrixPushButtons
        (allocateMatrix device.matrixDimensions) with
    | none => simp [hp] at hex
    | some matrix =>
      simp only [hp] at hex
      injection hex with hex
      subst hex
      rfl
  unfold CustomEditor.loadColours
  simp [hfile, QJsonDocument.isNull, QJsonDocument.object, QJsonObject.ref, hcont, hval,
    QJsonValue.isUndefined, Run.halt?, Run.lastState, hcol]

theorem loadColours_after_export_aborts_witness :
    (exampleDevice (6, 16) "keyboard").deviceType = "keyboard" ∧
    Run.halt? (builtState.exportToJSON (exampleDevice (6, 16) "keyboard")) = none ∧
    Run.halt? ((Run.lastState (builtState.exportToJSON (exampleDevice (6, 16)
      "keyboard"))).loadColours (exampleDevice (6, 16) "keyboard")) = some Halt.abort :=
  ⟨rfl, by decide,
    (loadColours_after_export_aborts (exampleDevice (6, 16) "keyboard") builtState
      (Run.lastState (builtState.exportToJSON (exampleDevice (6, 16) "keyboard"))) rfl
      (by
        have h : Run.halt? (builtState.exportToJSON (exampleDevice (6, 16) "keyboard")) = none := by
          decide
        cases hr : builtState.exportToJSON (exampleDevice (6, 16) "keyboard") with
        | ok s1 => rfl
        | error e => rw [hr] at h; exact absurd h (by simp [Run.halt?]))).1⟩

/-! ## The exported matrix -/

theorem foldl_append_const {α : Type} (x : α) (n : Nat) (init : List α) :
    (List.range n).foldl (fun acc _ => acc ++ [x]) init = init ++ List.replicate n x := by
  induction n with
  | zero => simp
  | succ n ih =>
    rw [List.range_succ, List.foldl_append, ih]
    simp [List.replicate_succ']

/-- The allocation gives `rows + 1` rows of `cols` empty strings. -/
theorem allocateMatrix_eq (dimens : Nat × Nat) :
    allocateMatrix dimens = List.replicate (dimens.1 + 1)
      (QJsonValue.array (List.replicate dimens.2 (QJsonValue.string ""))) := by
  unfold allocateMatrix
  rw [foldl_append_const, foldl_append_const]
  simp

/-- One step of the population, for a button tagged within the grid: it succeeds, the
matrix keeps its number of rows, and the row of the button gets one entry more. -/
theorem populateCell_shape (colors : List (List QColor)) (rows cols : Nat)
    (hgrid : isGrid colors rows cols) (matrix : List QJsonValue) (cnt : Nat → Nat)
    (btn : MatrixPushButton) (hb : inBounds (rows, cols) btn.matrixpos)
    (hlen : matrix.length = rows + 1)
    (hinv : ∀ r < rows + 1, ∃ items, matrix[r]? = some (QJsonValue.array items) ∧
      items.length = cols + cnt r) :
    ∃ matrix1, populateCell colors matrix btn = some matrix1 ∧ matrix1.length = rows + 1 ∧
      ∀ r < rows + 1, ∃ items, matrix1[r]? = some (QJsonValue.array items) ∧
        items.length = cols + (cnt r + if btn.matrixpos.1 = (r : Int) then 1 else 0) := by
  obtain ⟨⟨hr0, hr1⟩, hc0, hc1⟩ := hb
  simp only at hr0 hr1 hc0 hc1
  obtain ⟨rowColors, hat, hmem⟩ := QVector.at?_of_lt colors _ hr0 (by rw [hgrid.1]; exact hr1)
  have hrl : rowColors.length = cols := hgrid.2 _ hmem
  obtain ⟨color, hcol, _⟩ := QVector.at?_of_lt rowColors _ hc0 (by rw [hrl]; exact hc1)
  have hrn : btn.matrixpos.1.toNat < rows + 1 := by omega
  obtain ⟨items, hitems, hil⟩ := hinv _ hrn
  have hmat : QVector.at? matrix btn.matrixpos.1 = some (QJsonValue.array items) := by
    rw [QVector.at?_eq_getElem? _ _ hr0, hitems]
  have hins : (0 ≤ btn.matrixpos.2 ∧ btn.matrixpos.2 ≤ (items.length : Int)) := by
    constructor
    · exact hc0
    · rw [hil]; push_cast; omega
  have hset : (0 ≤ btn.matrixpos.1 ∧ btn.matrixpos.1 < (matrix.length : Int)) := by
    constructor
    · exact hr0
    · rw [hlen]; push_cast; omega
  refine ⟨matrix.set btn.matrixpos.1.toNat (QJsonValue.array
    (items.take btn.matrixpos.2.toNat ++ QJsonValue.string color.name ::
      items.drop btn.matrixpos.2.toNat)), ?_, ?_, ?_⟩
  · simp only [populateCell, hat, hcol, hmat, QJsonValue.toArray, QJsonArray.insert?, hins,
      and_self, if_true, QVector.set?, hset]
  · simp [hlen]
  · intro r hr
    by_cases heq : btn.matrixpos.1 = (r : Int)
    · have hrr : btn.matrixpos.1.toNat = r := by omega
      refine ⟨items.take btn.matrixpos.2.toNat ++ QJsonValue.string color.name ::
        items.drop btn.matrixpos.2.toNat, ?_, ?_⟩
      · rw [hrr, List.getElem?_set_self (by omega)]
      · have hle : btn.matrixpos.2.toNat ≤ items.length := by omega
        have hcr : cnt btn.matrixpos.1.toNat = cnt r := by rw [hrr]
        simp only [List.length_append, List.length_take, List.length_cons, List.length_drop,
          heq, if_true]
        omega
    · have hne : btn.matrixpos.1.toNat ≠ r := by omega
      obtain ⟨items2, h2, hl2⟩ := hinv r hr
      refine ⟨items2, ?_, ?_⟩
      · rw [List.getElem?_set_ne hne]
        exact h2
      · simp only [heq, if_false]
        omega

/-- The population over buttons tagged within the grid succeeds; the matrix keeps its
number of rows, and every row has one entry more per button tagged in that row. -/
theorem populateMatrix_shape (colors : List (List QColor)) (rows cols : Nat)
    (hgrid : isGrid colors rows cols) :
    ∀ (buttons : List MatrixPushButton) (matrix : List QJsonValue) (cnt : Nat → Nat),
      (∀ b ∈ buttons, inBounds (rows, cols) b.matrixpos) →
      matrix.length = rows + 1 →
      (∀ r < rows + 1, ∃ items, matrix[r]? = some (QJsonValue.array items) ∧
        items.length = cols + cnt r) →
      ∃ matrix1, populateMatrix colors buttons matrix = some matrix1 ∧
        matrix1.length = rows + 1 ∧
        ∀ r < rows + 1, ∃ items, matrix1[r]? = some (QJsonValue.array items) ∧
          items.length = cols + (cnt r +
            buttons.countP (fun b => decide (b.matrixpos.1 = (r : Int)))) := by
  intro buttons
  induction buttons with
  | nil =>
    intro matrix cnt _ hlen hinv
    exact ⟨matrix, rfl, hlen, by simpa using hinv⟩
  | cons btn rest ih =>
    intro matrix cnt hb hlen hinv
    obtain ⟨m1, hcell, hlen1, hinv1⟩ := populateCell_shape colors rows cols hgrid matrix cnt btn
      (hb btn (List.mem_cons_self _ _)) hlen hinv
    obtain ⟨m2, hrest, hlen2, hinv2⟩ := ih m1
      (fun r => cnt r + if btn.matrixpos.1 = (r : Int) then 1 else 0)
      (fun b hmem => hb b (List.mem_cons_of_mem _ hmem)) hlen1 hinv1
    refine ⟨m2, by simp [populateMatrix, hcell, hrest], hlen2, ?_⟩
    intro r hr
    obtain ⟨items, hget, hl⟩ := hinv2 r hr
    refine ⟨items, hget, ?_⟩
    rw [hl, List.countP_cons]
    by_cases heq : btn.matrixpos.1 = (r : Int)
    · simp [heq]
      omega
    · simp [heq]

/-- What `exportToJSON` stores for a keyboard whose grid has the dimensions the device
reports and whose registered buttons are all tagged within them: it returns, the stored
matrix has `rows + 1` rows, and row `r` has `cols` entries plus one for every registered
button tagged in row `r`. -/
theorem exportToJSON_matrix_shape (device : Device) (s : CustomEditor)
    (hk : device.deviceType = "keyboard")
    (hgrid : isGrid s.colors device.matrixDimensions.1 device.matrixDimensions.2)
    (hb : ∀ b ∈ s.matrixPushButtons, inBounds device.matrixDimensions b.matrixpos) :
    ∃ s1, s.exportToJSON device = Except.ok s1 ∧
      (exportedMatrix s1.config device.deviceName).length = device.matrixDimensions.1 + 1 ∧
      ∀ r < device.matrixDimensions.1 + 1,
        ∃ items, (exportedMatrix s1.config device.deviceName)[r]? = some (QJsonValue.array items) ∧
          items.length = device.matrixDimensions.2 +
            s.matrixPushButtons.countP (fun b => decide (b.matrixpos.1 = (r : Int))) := by
  obtain ⟨matrix, hpop, hlen, hrows⟩ := populateMatrix_shape s.colors device.matrixDimensions.1
    device.matrixDimensions.2 hgrid s.matrixPushButtons (allocateMatrix device.matrixDimensions)
    (fun _ => 0) hb (by simp [allocateMatrix_eq])
    (by
      intro r hr
      refine ⟨List.replicate device.matrixDimensions.2 (QJsonValue.string ""), ?_, by simp⟩
      rw [allocateMatrix_eq, List.getElem?_replicate]
      simp [hr])
  have hmatrix : ∀ (config : QJsonObject),
      exportedMatrix (config.insert device.deviceName (QJsonValue.object
        ((QJsonObject.insert [] "Type" (QJsonValue.string device.deviceType)).insert "Matrix"
          (QJsonValue.array matrix)))) device.deviceName = matrix := by
    intro config
    simp [exportedMatrix, QJsonObject.value_insert, QJsonValue.toObject, QJsonValue.toArray]
  have hcfg : exportedMatrix
      (if s.config.isEmpty = false then
        s.config.insert device.deviceName (QJsonValue.object
          ((QJsonObject.insert [] "Type" (QJsonValue.string device.deviceType)).insert "Matrix"
            (QJsonValue.array matrix)))
      else
        ((QJsonObject.insert [] "Name" (QJsonValue.string "Default Profile")).insert "Author"
          (QJsonValue.string "RazerGenie")).insert device.deviceName (QJsonValue.object
            ((QJsonObject.insert [] "Type" (QJsonValue.string device.deviceType)).insert "Matrix"
              (QJsonValue.array matrix)))) device.deviceName = matrix := by
    split_ifs <;> exact hmatrix _
  unfold CustomEditor.exportToJSON
  rw [if_neg (by simp [hk])]
  simp only [hpop]
  refine ⟨_, rfl, ?_, ?_⟩
  · simp only [CustomEditor.emit, hcfg, hlen]
  · intro r hr
    obtain ⟨items, hget, hl⟩ := hrows r hr
    refine ⟨items, ?_, by simpa using hl⟩
    simp only [CustomEditor.emit, hcfg, hget]

/-- C9 fails on the code. The editor of a 6 by 16 keyboard with the one key `Esc` tagged
`(0, 1)` exports a matrix of 7 rows whose row 0 has 17 entries, not 16: the colour name
was inserted before the empty string at column 1, which moved up with the rest. -/
theorem exportToJSON_row_grows :
    Run.halt? (builtState.exportToJSON (exampleDevice (6, 16) "keyboard")) = none ∧
    (exportedMatrix (Run.lastState (builtState.exportToJSON
        (exampleDevice (6, 16) "keyboard"))).config "Foo").map rowStrings =
      [["", "#000000", "", "", "", "", "", "", "", "", "", "", "", "", "", "", ""],
       ["", "", "", "", "", "", "", "", "", "", "", "", "", "", "", ""],
       ["", "", "", "", "", "", "", "", "", "", "", "", "", "", "", ""],
       ["", "", "", "", "", "", "", "", "", "", "", "", "", "", "", ""],
       ["", "", "", "", "", "", "", "", "", "", "", "", "", "", "", ""],
       ["", "", "", "", "", "", "", "", "", "", "", "", "", "", "", ""],
       ["", "", "", "", "", "", "", "", "", "", "", "", "", "", "", ""]] := by
  decide

/-- When two buttons of a row are registered in decreasing column order, the insertion
also moves a colour name away from its column: with cells red at `(0, 0)` and black at
`(0, 1)` and buttons tagged `(0, 1)` then `(0, 0)`, row 0 of the exported matrix is
`#ff0000`, empty, `#000000`, empty. -/
theorem exportToJSON_cell_moves :
    (exportedMatrix (Run.lastState ((exampleState .set).exportToJSON
        (exampleDevice (1, 2) "keyboard"))).config "Foo").map rowStrings =
      [["#ff0000", "", "#000000", ""], ["", ""]] := by
  decide

/-! ## Bounds of the registry -/

theorem CustomEditor.closeUnless_parse_frame (env : Environment) (jsonname : String)
    (s : CustomEditor) :
    (CustomEditor.closeUnless (s.parseKeyboardJSON env jsonname)).colors = s.colors ∧
    (CustomEditor.closeUnless (s.parseKeyboardJSON env jsonname)).dimens = s.dimens ∧
    (CustomEditor.closeUnless (s.parseKeyboardJSON env jsonname)).matrixPushButtons =
      s.matrixPushButtons := by
  unfold CustomEditor.parseKeyboardJSON CustomEditor.closeUnless
  cases env.develLayouts jsonname <;> cases env.prodLayouts jsonname <;>
    simp [CustomEditor.emit, CustomEditor.closeWindow]

theorem CustomEditor.selectLayout_frame (env : Environment) (s : CustomEditor) :
    (s.selectLayout env).colors = s.colors ∧ (s.selectLayout env).dimens = s.dimens ∧
    (s.selectLayout env).matrixPushButtons = s.matrixPushButtons := by
  unfold CustomEditor.selectLayout
  split_ifs
  · exact CustomEditor.closeUnless_parse_frame env _ s
  · exact CustomEditor.closeUnless_parse_frame env _ s
  · exact CustomEditor.closeUnless_parse_frame env _ s
  · exact ⟨rfl, rfl, rfl⟩

/-- The layout phase leaves the grid and the dimensions alone. -/
theorem CustomEditor.buildLayout_frame (env : Environment) (device : Device)
    (launchMatrixDiscovery : Bool) (s : CustomEditor) :
    (Run.lastState (s.buildLayout env device launchMatrixDiscovery)).colors = s.colors ∧
    (Run.lastState (s.buildLayout env device launchMatrixDiscovery)).dimens = s.dimens := by
  unfold CustomEditor.buildLayout
  cases launchMatrixDiscovery
  case true => simp [Run.lastState, CustomEditor.generateMatrixDiscovery]
  case false =>
    simp only [Bool.false_eq_true, if_false]
    by_cases hk : device.deviceType = "keyboard"
    · obtain ⟨evs, bs, hlast, _, _⟩ := CustomEditor.generateKeyboard_lastState env device
        (s.selectLayout env)
      obtain ⟨hc, hdim, _⟩ := CustomEditor.selectLayout_frame env s
      simp only [hk, if_true, CustomEditor.keyboardBranch, hlast]
      exact ⟨hc, hdim⟩
    · by_cases hm : device.deviceType = "mousemat"
      · by_cases h15 : s.dimens.1 = 1 ∧ s.dimens.2 = 15 <;>
          simp [hk, hm, h15, Run.lastState, CustomEditor.generateMousemat, CustomEditor.emit,
            CustomEditor.closeWindow]
      · simp [hk, hm, Run.lastState, CustomEditor.emit, CustomEditor.closeWindow]

/-- When the grid has the stored dimensions and every registered button is tagged within
them, a click on a registered button returns. -/
theorem CustomEditor.click_returns (f : CustomEditor) (dimens : Nat × Nat)
    (hgrid : isGrid f.colors dimens.1 dimens.2)
    (hb : ∀ b ∈ f.matrixPushButtons, inBounds dimens b.matrixpos)
    (device : Device) (sender : Nat) (hs : sender < f.matrixPushButtons.length) :
    ∃ f1, f.onMatrixPushButtonClicked device sender = Except.ok f1 := by
  have hget : f.matrixPushButtons[sender]? = some f.matrixPushButtons[sender] :=
    List.getElem?_eq_getElem hs
  obtain ⟨⟨hr0, hr1⟩, hc0, hc1⟩ := hb _ (List.getElem_mem hs)
  obtain ⟨rowColors, hat, hmem⟩ := QVector.at?_of_lt f.colors _ hr0 (by rw [hgrid.1]; exact hr1)
  have hlen : rowColors.length = dimens.2 := hgrid.2 _ hmem
  obtain ⟨evs, hok⟩ := CustomEditor.onMatrixPushButtonClicked_ok device f sender _ rowColors
    hget hat hc0 (by rw [hlen]; exact hc1)
  exact ⟨_, hok⟩

/-- When the grid has the given dimensions and every registered button is tagged within
them, the cell at the tag of every registered button exists. -/
theorem CustomEditor.cell_isSome (f : CustomEditor) (dimens : Nat × Nat)
    (hgrid : isGrid f.colors dimens.1 dimens.2)
    (hb : ∀ b ∈ f.matrixPushButtons, inBounds dimens b.matrixpos) :
    ∀ b ∈ f.matrixPushButtons, (f.cell b.matrixpos.1 b.matrixpos.2).isSome = true := by
  intro b hmem
  obtain ⟨⟨hr0, hr1⟩, hc0, hc1⟩ := hb b hmem
  obtain ⟨rowColors, hat, hrow⟩ := QVector.at?_of_lt f.colors _ hr0 (by rw [hgrid.1]; exact hr1)
  have hlen : rowColors.length = dimens.2 := hgrid.2 _ hrow
  obtain ⟨color, hcol, _⟩ := QVector.at?_of_lt rowColors _ hc0 (by rw [hlen]; exact hc1)
  simp [CustomEditor.cell, hat, hcol]

/-- When the grid has the dimensions the device reports and every registered button is
tagged within them, `exportToJSON` returns. -/
theorem CustomEditor.export_returns (f : CustomEditor) (dimens : Nat × Nat)
    (hgrid : isGrid f.colors dimens.1 dimens.2)
    (hb : ∀ b ∈ f.matrixPushButtons, inBounds dimens b.matrixpos)
    (device : Device) (hd : device.matrixDimensions = dimens) :
    ∃ f1, f.exportToJSON device = Except.ok f1 := by
  subst hd
  by_cases hk : device.deviceType = "keyboard"
  · obtain ⟨f1, hok, _⟩ := exportToJSON_matrix_shape device f hk hgrid hb
    exact ⟨f1, hok⟩
  · exact ⟨f, by simp [CustomEditor.exportToJSON, hk]⟩

/-- The three facts that make a registry safe. -/
theorem registrySafe_of (dimens : Nat × Nat) (f : CustomEditor) (hdim : f.dimens = dimens)
    (hgrid : isGrid f.colors dimens.1 dimens.2)
    (hb : ∀ b ∈ f.matrixPushButtons, inBounds dimens b.matrixpos) :
    registrySafe dimens f :=
  ⟨hdim, hgrid, hb, CustomEditor.cell_isSome f dimens hgrid hb,
    CustomEditor.click_returns f dimens hgrid hb,
    CustomEditor.export_returns f dimens hgrid hb⟩

/-- A click that returns keeps the registry safe: the grid keeps its shape and the
registry its tags, so every later click returns as well. -/
theorem registrySafe_click (dimens : Nat × Nat) (f f1 : CustomEditor) (device : Device)
    (sender : Nat) (hsafe : registrySafe dimens f)
    (hclick : f.onMatrixPushButtonClicked device sender = Except.ok f1) :
    registrySafe dimens f1 := by
  obtain ⟨hdim, hgrid, hb, _⟩ := hsafe
  have hs : sender < f.matrixPushButtons.length := by
    by_contra hge
    have hnone : f.matrixPushButtons[sender]? = none := List.getElem?_eq_none (by omega)
    simp [CustomEditor.onMatrixPushButtonClicked, hnone] at hclick
  have hget : f.matrixPushButtons[sender]? = some f.matrixPushButtons[sender] :=
    List.getElem?_eq_getElem hs
  obtain ⟨⟨hr0, hr1⟩, hc0, hc1⟩ := hb _ (List.getElem_mem hs)
  obtain ⟨rowColors, hat, hmem⟩ := QVector.at?_of_lt f.colors _ hr0 (by rw [hgrid.1]; exact hr1)
  have hlen : rowColors.length = dimens.2 := hgrid.2 _ hmem
  obtain ⟨evs, hok⟩ := CustomEditor.onMatrixPushButtonClicked_ok device f sender _ rowColors
    hget hat hc0 (by rw [hlen]; exact hc1)
  rw [hok] at hclick
  injection hclick with hclick
  subst hclick
  have hg1 : isGrid (f.colors.set (f.matrixPushButtons[sender]).matrixpos.1.toNat
      (rowColors.set (f.matrixPushButtons[sender]).matrixpos.2.toNat
        (match f.drawStatus with
          | .set => f.selectedColor
          | .clear => Qt.black))) dimens.1 dimens.2 := by
    refine ⟨by simpa using hgrid.1, ?_⟩
    intro row hrow
    rcases List.mem_or_eq_of_mem_set hrow with h | h
    · exact hgrid.2 row h
    · rw [h]
      simpa using hlen
  have hb1 : ∀ b ∈ f.matrixPushButtons.set sender
      (match f.drawStatus with
        | .set => (f.matrixPushButtons[sender]).setButtonColor f.selectedColor
        | .clear => (f.matrixPushButtons[sender]).resetButtonColor),
      inBounds dimens b.matrixpos := by
    intro b hmemb
    rcases List.mem_or_eq_of_mem_set hmemb with h | h
    · exact hb b h
    · rw [h]
      cases f.drawStatus <;> exact ⟨⟨hr0, hr1⟩, hc0, hc1⟩
  exact registrySafe_of dimens _ hdim hg1 hb1

/-- The method `clearAll` keeps the registry safe. -/
theorem registrySafe_clearAll (dimens : Nat × Nat) (f : CustomEditor)
    (hsafe : registrySafe dimens f) : registrySafe dimens f.clearAll := by
  obtain ⟨hdim, hgrid, hb, _⟩ := hsafe
  obtain ⟨_, _, hpos, _, _, hg⟩ := CustomEditor.clearAll_kept f
  have hb1 : ∀ b ∈ f.clearAll.matrixPushButtons, inBounds dimens b.matrixpos := by
    intro b hmem
    simp only [CustomEditor.clearAll, List.mem_map] at hmem
    obtain ⟨old, hold, rfl⟩ := hmem
    exact hb old hold
  exact registrySafe_of dimens _ hdim (hg _ _ hgrid) hb1

/-- The layout `generateKeyboard` resolves depends on the loaded description only. -/
theorem CustomEditor.resolveKeyboardLayout_congr (device : Device) (s t : CustomEditor)
    (h : s.keyboardKeys = t.keyboardKeys) :
    (s.resolveKeyboardLayout device).1 = (t.resolveKeyboardLayout device).1 := by
  unfold CustomEditor.resolveKeyboardLayout
  rw [h]
  by_cases hc : device.keyboardLayout ≠ "unknown" ∧
      t.keyboardKeys.contains device.keyboardLayout = true
  · rw [if_pos hc, if_pos hc]
  · rw [if_neg hc, if_neg hc]
    cases fallbackLangs.find? (fun lang => t.keyboardKeys.contains lang) <;> rfl

/-- In the keyboard branch every tag of the registry the constructor ends with is the
position `keyPos` of a labelled key of the layout that `generateKeyboard` resolves from
the loaded description. -/
theorem CustomEditor.new_keyboard_tags (env : Environment) (device : Device)
    (schemeFile : Option QJsonDocument) (htype : device.deviceType = "keyboard") :
    ∀ pos ∈ (Run.lastState (CustomEditor.new env device false schemeFile)).matrixPushButtons.map
        (fun b => b.matrixpos),
      ∃ it ∈ ((Run.lastState (CustomEditor.new env device false
          schemeFile)).resolveKeyboardLayout device).1,
        ∃ jt ∈ it.2.toArray,
          (jt.toObject.at "label").isNull = false ∧ keyPos env jt.toObject = pos := by
  obtain ⟨_, hkeys, hpos, _, _, _⟩ := CustomEditor.new_kept env device false schemeFile
  have hbuild : (CustomEditor.initial device schemeFile).buildLayout env device false =
      ((CustomEditor.initial device schemeFile).selectLayout env).generateKeyboard env device := by
    simp [CustomEditor.buildLayout, htype, CustomEditor.keyboardBranch]
  obtain ⟨evs, hres, _, _⟩ := CustomEditor.resolveKeyboardLayout_spec device
    ((CustomEditor.initial device schemeFile).selectLayout env)
  obtain ⟨bs, hlast, hbs⟩ := CustomEditor.addRows_lastState env
    (((CustomEditor.initial device schemeFile).selectLayout env).resolveKeyboardLayout device).1
    (((CustomEditor.initial device schemeFile).selectLayout env).resolveKeyboardLayout device).2
  have hmpb : ((CustomEditor.initial device schemeFile).selectLayout env).matrixPushButtons
      = [] := (CustomEditor.selectLayout_frame env _).2.2
  have hgen : Run.lastState (((CustomEditor.initial device schemeFile).selectLayout
      env).generateKeyboard env device) =
      { (((CustomEditor.initial device schemeFile).selectLayout env).resolveKeyboardLayout
          device).2 with
        matrixPushButtons :=
          (((CustomEditor.initial device schemeFile).selectLayout env).resolveKeyboardLayout
            device).2.matrixPushButtons ++ bs } := by
    unfold CustomEditor.generateKeyboard
    exact hlast
  rw [hbuild, hgen] at hkeys hpos
  have hkeys2 : (Run.lastState (CustomEditor.new env device false schemeFile)).keyboardKeys =
      ((CustomEditor.initial device schemeFile).selectLayout env).keyboardKeys := by
    rw [hkeys, hres]
  rw [CustomEditor.resolveKeyboardLayout_congr device _ _ hkeys2]
  intro pos hmem
  rw [hpos, hres] at hmem
  simp only [hmpb, List.nil_append, List.mem_map] at hmem
  obtain ⟨b, hb, rfl⟩ := hmem
  exact hbs b hb

/-- The tags of the registry after the constructor, by the branch that built it. -/
theorem CustomEditor.new_tags (env : Environment) (device : Device)
    (launchMatrixDiscovery : Bool) (schemeFile : Option QJsonDocument)
    (h : (launchMatrixDiscovery = true ∨ device.deviceType ≠ "keyboard") ∨
      layoutWithinBounds env device.matrixDimensions
        ((Run.lastState (CustomEditor.new env device launchMatrixDiscovery
          schemeFile)).resolveKeyboardLayout device).1) :
    ∀ pos ∈ (Run.lastState (CustomEditor.new env device launchMatrixDiscovery
        schemeFile)).matrixPushButtons.map (fun b => b.matrixpos),
      inBounds device.matrixDimensions pos := by
  obtain ⟨_, _, hpos, _, _, _⟩ := CustomEditor.new_kept env device launchMatrixDiscovery schemeFile
  by_cases hd : launchMatrixDiscovery = true
  · subst hd
    rw [hpos]
    intro pos hmem
    simp only [CustomEditor.buildLayout, if_true, Run.lastState,
      CustomEditor.generateMatrixDiscovery, CustomEditor.initial, List.nil_append, List.mem_map,
      List.mem_flatMap, List.mem_range] at hmem
    obtain ⟨b, ⟨i, hi, j, hj, rfl⟩, rfl⟩ := hmem
    simp only [MatrixPushButton.setMatrixPos, inBounds]
    omega
  · have hdf : launchMatrixDiscovery = false := by simpa using hd
    subst hdf
    by_cases hk : device.deviceType = "keyboard"
    · have hlw : layoutWithinBounds env device.matrixDimensions
          ((Run.lastState (CustomEditor.new env device false
            schemeFile)).resolveKeyboardLayout device).1 := by
        rcases h with (h | h) | h
        · exact absurd h (by simp)
        · exact absurd hk h
        · exact h
      intro pos hmem
      obtain ⟨it, hit, jt, hjt, hlabel, hkp⟩ :=
        CustomEditor.new_keyboard_tags env device schemeFile hk pos hmem
      exact hkp ▸ hlw it hit jt hjt hlabel
    · rw [hpos]
      intro pos hmem
      by_cases hm : device.deviceType = "mousemat"
      · by_cases h15 : device.matrixDimensions.1 = 1 ∧ device.matrixDimensions.2 = 15
        · have h15i : (CustomEditor.initial device schemeFile).dimens.1 = 1 ∧
              (CustomEditor.initial device schemeFile).dimens.2 = 15 := h15
          unfold CustomEditor.buildLayout at hmem
          rw [if_neg (by simp), if_neg hk, if_pos hm, if_pos h15i] at hmem
          simp only [Run.lastState, CustomEditor.generateMousemat, CustomEditor.initial,
            List.nil_append, List.mem_map, List.mem_range] at hmem
          obtain ⟨b, ⟨i, hi, rfl⟩, rfl⟩ := hmem
          simp only [MatrixPushButton.setMatrixPos, inBounds]
          omega
        · simp [CustomEditor.buildLayout, hk, hm, CustomEditor.initial, h15, Run.lastState,
            CustomEditor.emit, CustomEditor.closeWindow] at hmem
      · simp [CustomEditor.buildLayout, hk, hm, CustomEditor.initial, Run.lastState,
          CustomEditor.emit, CustomEditor.closeWindow] at hmem

/-- C10 as stated fails: for a keyboard of 6 by 16 whose layout description declares the
position `(6, 0)`, the constructor registers a button tagged outside the matrix. -/
theorem registry_bounds_counterexample :
    ¬ ∀ b ∈ (Run.lastState (CustomEditor.new strayEnv (exampleDevice (6, 16) "keyboard") false
        none)).matrixPushButtons, inBounds (6, 16) b.matrixpos := by
  decide

/-- In that state a click on the registered button does not return: the access
`colors[6]` is outside the grid of 6 rows. -/
theorem stray_click_out_of_range :
    Run.halt? ((Run.lastState (CustomEditor.new strayEnv (exampleDevice (6, 16) "keyboard") false
      none)).onMatrixPushButtonClicked (exampleDevice (6, 16) "keyboard") 0) =
      some Halt.indexOutOfRange := by
  decide

/-- A `matrix` array of one item: the missing column reads as 0, the key `A` is registered
at `(6, 0)`, outside the matrix of 6 rows, the builder goes on to register `B`, and the
layout is not within bounds. -/
theorem short_matrix_reads_zero :
    (Run.lastState (CustomEditor.new shortEnv (exampleDevice (6, 16) "keyboard") false
      none)).matrixPushButtons.map (fun b => b.matrixpos) = [(6, 0), (0, 1)] ∧
    ¬ layoutWithinBounds shortEnv (6, 16)
      ((Run.lastState (CustomEditor.new shortEnv (exampleDevice (6, 16) "keyboard") false
        none)).resolveKeyboardLayout (exampleDevice (6, 16) "keyboard")).1 := by
  decide

/-- C10, amended. After construction with any dimensions: when the grid was built by the
matrix discovery or the mousemat builder (or no builder ran), and also when it was built
by the keyboard builder and every labelled key of the layout it resolved from the loaded
description gets a position within the matrix, the stored dimensions are those of the
device, the grid has that many rows and columns, every registered button is tagged within
them, and the accesses to the grid at the tags are in range: the cell `colors[r][c]` of
every registered button exists, a click on any registered button returns, and
`exportToJSON` returns for a device reporting these dimensions. -/
theorem registry_within_bounds (env : Environment) (device : Device)
    (launchMatrixDiscovery : Bool) (schemeFile : Option QJsonDocument)
    (h : (launchMatrixDiscovery = true ∨ device.deviceType ≠ "keyboard") ∨
      layoutWithinBounds env device.matrixDimensions
        ((Run.lastState (CustomEditor.new env device launchMatrixDiscovery
          schemeFile)).resolveKeyboardLayout device).1) :
    registrySafe device.matrixDimensions
      (Run.lastState (CustomEditor.new env device launchMatrixDiscovery schemeFile)) := by
  obtain ⟨hdim, _, _, _, _, hgrid⟩ :=
    CustomEditor.new_kept env device launchMatrixDiscovery schemeFile
  obtain ⟨hc, hd⟩ := CustomEditor.buildLayout_frame env device launchMatrixDiscovery
    (CustomEditor.initial device schemeFile)
  have hg : isGrid (Run.lastState (CustomEditor.new env device launchMatrixDiscovery
      schemeFile)).colors device.matrixDimensions.1 device.matrixDimensions.2 :=
    hgrid _ _ (hc ▸ isGrid_initial device schemeFile)
  have hb : ∀ b ∈ (Run.lastState (CustomEditor.new env device launchMatrixDiscovery
      schemeFile)).matrixPushButtons, inBounds device.matrixDimensions b.matrixpos :=
    fun b hmem => CustomEditor.new_tags env device launchMatrixDiscovery schemeFile h _
      (List.mem_map_of_mem _ hmem)
  exact registrySafe_of _ _ (hdim.trans hd) hg hb

theorem registry_within_bounds_witness :
    layoutWithinBounds exampleEnv (6, 16)
      ((Run.lastState (CustomEditor.new exampleEnv (exampleDevice (6, 16) "keyboard") false
        none)).resolveKeyboardLayout (exampleDevice (6, 16) "keyboard")).1 ∧
    (Run.lastState (CustomEditor.new exampleEnv (exampleDevice (6, 16) "keyboard") false
        none)).matrixPushButtons.length = 1 ∧
    registrySafe (6, 16)
      (Run.lastState (CustomEditor.new exampleEnv (exampleDevice (6, 16) "keyboard") false none)) :=
  ⟨by decide, by decide,
    registry_within_bounds exampleEnv (exampleDevice (6, 16) "keyboard") false none
      (Or.inr (by decide))⟩

end RazerGenie
